import Mathlib

/-!
Verification development for the ArtifyGames comfyui-testing repository.

The Python sources (src/nodes.py, src/routes.py) are shallowly embedded below:
pure helpers become Lean functions over List Char / String, the stateful
ArtifyXYZPlot.execute method becomes a function returning an explicit trace of
side effects (folder renames, file writes, graph submissions), and fallible
code returns Except.  Python machine integers are modelled as Int / Nat
(no overflow is relevant here), Python dicts as association lists.
-/

namespace Artify

/-! ## Python string primitives (ASCII model)

Python str.strip with no argument removes whitespace from both ends; we model
the ASCII whitespace characters.  str.replace(a, b) scans left to right
replacing non-overlapping occurrences.  str.split(sep, maxsplit) splits on the
leftmost occurrences first. -/

def isPyWs (c : Char) : Bool :=
  c = ' ' || c = '\t' || c = '\n' || c = '\r' || c = '\x0b' || c = '\x0c'

/-- Python str.strip() on a character list. -/
def pyStripL (l : List Char) : List Char :=
  ((l.dropWhile isPyWs).reverse.dropWhile isPyWs).reverse

def pyStrip (s : String) : String := ⟨pyStripL s.data⟩

/-- Python str.strip("/") on a character list. -/
def stripSlashL (l : List Char) : List Char :=
  ((l.dropWhile (fun c => c = '/')).reverse.dropWhile (fun c => c = '/')).reverse

/-- Python str.replace("\\", "/") : single-character replacement is a map. -/
def backslashToSlash (l : List Char) : List Char :=
  l.map (fun c => if c = '\\' then '/' else c)

/-- Python str.replace("..", "") : remove non-overlapping occurrences of ".."
scanning left to right. -/
def removeDD : List Char → List Char
  | [] => []
  | '.' :: '.' :: rest => removeDD rest
  | c :: rest => c :: removeDD rest

/-- Python str.split(ch) (full split on a single-character separator):
always returns at least one (possibly empty) field. -/
def splitChar (sep : Char) : List Char → List (List Char)
  | [] => [[]]
  | c :: rest =>
    let r := splitChar sep rest
    if c = sep then [] :: r
    else
      match r with
      | [] => [[c]]
      | h :: t => (c :: h) :: t

/-- Locate the leftmost occurrence of the two-character separator "::";
returns the field before it and the remainder after it. -/
def splitSepOnce : List Char → Option (List Char × List Char)
  | ':' :: ':' :: rest => some ([], rest)
  | c :: rest =>
    match splitSepOnce rest with
    | none => none
    | some (a, b) => some (c :: a, b)
  | [] => none

/-- Python value.split("::", 2): at most two splits, leftmost first. -/
def splitColons2 (l : List Char) : List (List Char) :=
  match splitSepOnce l with
  | none => [l]
  | some (a, r) =>
    match splitSepOnce r with
    | none => [a, r]
    | some (b, r2) => [a, b, r2]

/-! ## Decimal rendering and parsing of numbers -/

def digitChar : Nat → Char
  | 0 => '0' | 1 => '1' | 2 => '2' | 3 => '3' | 4 => '4'
  | 5 => '5' | 6 => '6' | 7 => '7' | 8 => '8' | _ => '9'

def isDigitChar (c : Char) : Bool := '0' ≤ c && c ≤ '9'

def digitVal (c : Char) : Nat := c.toNat - 48

/-- Decimal digits of a natural number, most significant first
(fuel-based so that it reduces by rfl; fuel n+1 always suffices). -/
def natDigitsAux : Nat → Nat → List Char
  | 0, _ => []
  | fuel + 1, n =>
    if n < 10 then [digitChar n]
    else natDigitsAux fuel (n / 10) ++ [digitChar (n % 10)]

def natDigits (n : Nat) : List Char := natDigitsAux (n + 1) n

def natStr (n : Nat) : String := ⟨natDigits n⟩

/-- Python str(int). -/
def intStr (i : Int) : String :=
  if i < 0 then "-" ++ natStr i.natAbs else natStr i.toNat

/-- Python int() on a string of decimal digits. -/
def numOfDigits (l : List Char) : Nat :=
  l.foldl (fun acc c => acc * 10 + digitVal c) 0

/-- Python str.isdigit() (ASCII model): non-empty and all decimal digits. -/
def isDigitStr (l : List Char) : Bool := !l.isEmpty && l.all isDigitChar

/-- Lower-casing of ASCII letters (model of re.IGNORECASE matching). -/
def pyLower (c : Char) : Char :=
  if 'A' ≤ c && c ≤ 'Z' then Char.ofNat (c.toNat + 32) else c

end Artify

namespace Artify.Nodes

/-- src/nodes.py lines 44-50.
def _sanitize_folder_name(name): clean = (name or "").strip().replace("\\", "/");
clean = clean.strip("/"); clean = clean.replace("..", "");
if not clean: clean = "xyz_plot_artify"; return clean.
(The `name or ""` guard collapses a None-like argument to the empty string,
which the total String model already covers.) -/
def _sanitize_folder_name (name : String) : String :=
  let clean := backslashToSlash (pyStripL name.data)
  let clean := stripSlashL clean
  let clean := removeDD clean
  if clean = [] then "xyz_plot_artify" else ⟨clean⟩

/-- src/nodes.py lines 53-67.  _split_values(raw): the None guard returns [];
strip; empty gives []; split on ";" if present else "," if present else the
whole text; trim every part and drop empties. -/
def _split_values (raw : String) : List String :=
  let text := pyStripL raw.data
  if text = [] then []
  else
    let parts :=
      if text.contains ';' then splitChar ';' text
      else if text.contains ',' then splitChar ',' text
      else [text]
    ((parts.map pyStripL).filter (fun v => v ≠ [])).map (fun v => (⟨v⟩ : String))

end Artify.Nodes

namespace Artify.Routes

/-- src/routes.py lines 10-14.
def _sanitize_folder_name(name): value = (name or "").strip().replace("\\", "/");
value = value.strip("/"); value = value.replace("..", ""); return value. -/
def _sanitize_folder_name (name : String) : String :=
  let value := backslashToSlash (pyStripL name.data)
  let value := stripSlashL value
  let value := removeDD value
  (⟨value⟩ : String)

end Artify.Routes

namespace Artify.Nodes

/-- src/nodes.py lines 74-77.
def _image_filename(ix, iy, iz, batch_index):
  "x{ix}_y{iy}_z{iz}_{batch_index}.jpeg" if iz >= 0 else "x{ix}_y{iy}_{batch_index}.jpeg" -/
def _image_filename (ix iy iz batch_index : Int) : String :=
  if iz ≥ 0 then
    "x" ++ intStr ix ++ "_y" ++ intStr iy ++ "_z" ++ intStr iz ++ "_" ++ intStr batch_index ++ ".jpeg"
  else
    "x" ++ intStr ix ++ "_y" ++ intStr iy ++ "_" ++ intStr batch_index ++ ".jpeg"

/-- src/nodes.py lines 80-81. -/
def _preview_src (folder_name filename : String) : String :=
  "/view?filename=" ++ filename ++ "&type=output&subfolder=" ++ folder_name

/-- The structured axis reference of src/nodes.py (built by _parse_input_ref). -/
structure InputRef where
  node_id : String
  node_title : String
  widget_name : String
deriving DecidableEq, Repr

/-- src/nodes.py lines 84-104.  _parse_input_ref: strip; "" or "none" gives
absent; split on "::" with maxsplit 2; anything but exactly 3 fields gives
absent; a leading "#" on the node id is dropped.  (The isinstance(str) guard
maps non-string inputs to absent; the String model covers string inputs.) -/
def _parse_input_ref (input_ref : String) : Option InputRef :=
  let value := pyStripL input_ref.data
  if value = [] || value = "none".data then none
  else
    match splitColons2 value with
    | [p0, p1, p2] =>
      let node_id := if p0.headD ' ' = '#' then p0.tail else p0
      some ⟨⟨node_id⟩, ⟨p1⟩, ⟨p2⟩⟩
    | _ => none

/-! ## Filename-based recovery (src/nodes.py lines 336-368)

The regex  ^x(\d+)_y(\d+)(?:_z(\d+))?_(\d+)\.(?:jpg|jpeg|png|webp)$  with
re.IGNORECASE is modelled by a functional parser over the lower-cased
character list.  Digit runs are maximal (each \d+ is followed by a non-digit
literal, so greedy matching and maximal munch agree), and the optional z
group is tried first, falling back to the plain form exactly as the regex
backtracks. -/

def spanDigits (l : List Char) : List Char × List Char :=
  (l.takeWhile isDigitChar, l.dropWhile isDigitChar)

def extOk (l : List Char) : Bool :=
  l = "jpg".data || l = "jpeg".data || l = "png".data || l = "webp".data

/-- Match  _(\d+)\.(?:jpg|jpeg|png|webp)$  returning the batch index. -/
def matchTail (l : List Char) : Option Nat :=
  match l with
  | '_' :: r =>
    let (db, r2) := spanDigits r
    if db = [] then none
    else
      match r2 with
      | '.' :: ext => if extOk ext then some (numOfDigits db) else none
      | _ => none
  | _ => none

/-- Match the optional  _z(\d+)  group followed by the tail. -/
def matchZTail (l : List Char) : Option (Nat × Nat) :=
  match l with
  | '_' :: 'z' :: r =>
    let (dz, r2) := spanDigits r
    if dz = [] then none
    else
      match matchTail r2 with
      | some b => some (numOfDigits dz, b)
      | none => none
  | _ => none

/-- The anchored pattern on the lower-cased character list:
groups (x, y, optional z, batch). -/
def matchFilenameL (l : List Char) : Option (Nat × Nat × Option Nat × Nat) :=
  match l with
  | 'x' :: r1 =>
    let (dx, r2) := spanDigits r1
    if dx = [] then none
    else
      match r2 with
      | '_' :: 'y' :: r3 =>
        let (dy, r4) := spanDigits r3
        if dy = [] then none
        else
          match matchZTail r4 with
          | some (z, b) => some (numOfDigits dx, numOfDigits dy, some z, b)
          | none =>
            match matchTail r4 with
            | some b => some (numOfDigits dx, numOfDigits dy, none, b)
            | none => none
      | _ => none
  | _ => none

/-- The full filename pattern of _infer_plot_meta_from_filenames (IGNORECASE
is modelled by lower-casing the candidate before the anchored match). -/
def matchFilename (name : String) : Option (Nat × Nat × Option Nat × Nat) :=
  matchFilenameL (name.data.map pyLower)

/-- z-index recorded per match: int(match.group(3)) if present else -1
(src/nodes.py line 349). -/
def zIndexOf (m : Nat × Nat × Option Nat × Nat) : Int :=
  match m.2.2.1 with
  | some z => (z : Int)
  | none => -1

/-- Recovering one coordinate from one filename via the pattern, with the
z component inferred as -1 when the z group is absent. -/
def recoverFilename (name : String) : Option (Nat × Nat × Int × Nat) :=
  (matchFilename name).map (fun m => (m.1, m.2.1, zIndexOf m, m.2.2.2))

def maxList (l : List Nat) : Nat := l.foldr Nat.max 0

/-- The recovered grid metadata (src/nodes.py lines 285-307 and 336-368). -/
structure PlotMeta where
  values_x : List String
  values_y : List String
  values_z : List String
  z_slots : List Int
  batch_size : Nat
deriving DecidableEq, Repr

/-- src/nodes.py lines 336-368.  _infer_plot_meta_from_filenames: scan the
directory listing, match each entry against the pattern, collect x/y/z/batch
indices (sets are modelled by lists; only maxima, membership and the sorted
deduplicated z list are consumed downstream), fail when nothing matched. -/
def _infer_plot_meta_from_filenames (listing : List String) : Except String PlotMeta :=
  let ms := listing.filterMap matchFilename
  if ms = [] then
    .error "No XYZ images found in folder"
  else
    let xs := ms.map (fun m => m.1)
    let ys := ms.map (fun m => m.2.1)
    let zs := ms.map zIndexOf
    let batches := ms.map (fun m => m.2.2.2)
    let has_z := zs.any (fun z => z ≥ 0)
    -- sorted(set(...)) of the non-negative z indices
    let z_slots : List Int :=
      if has_z then
        ((List.range (maxList (ms.filterMap (fun m => m.2.2.1)) + 1)).filter
          (fun (k : Nat) => zs.contains ((k : Int)))).map (fun (k : Nat) => ((k : Int)))
      else [-1]
    .ok
      { values_x := (List.range (maxList xs + 1)).map (fun idx => "x" ++ natStr idx)
        values_y := (List.range (maxList ys + 1)).map (fun idx => "y" ++ natStr idx)
        values_z := if has_z then z_slots.map (fun z => "z" ++ intStr z) else []
        z_slots := z_slots
        batch_size := maxList batches + 1 }

/-! ## Graph documents (ComfyUI prompts)

A prompt is a Python dict whose keys may be strings or ints and whose values
are node dicts; a node dict carries a class_type and an optional "inputs"
dict from widget names to values.  Dicts are modelled as association lists
(lookup and update act on the first matching key). -/

inductive PKey where
  | strKey (s : String)
  | intKey (n : Int)
deriving DecidableEq, Repr

/-- str() applied to a prompt key. -/
def pkeyStr : PKey → String
  | .strKey s => s
  | .intKey n => intStr n

/-- The side-channel payload stamped as inputs["xyz_data"]
(src/nodes.py lines 670-676 / 689-695); read back with .get defaults at
lines 578-585. -/
structure XyzData where
  source_unique_id : Option String := none
  output_folder_name : Option String := none
  x_index : Option Int := none
  y_index : Option Int := none
  z_index : Option Int := none
deriving Repr

/-- Values stored in a node input map. -/
inductive PValue where
  /-- a plain (widget) string value -/
  | str (s : String)
  /-- an integer value -/
  | intV (n : Int)
  /-- a link list such as ["12", 0]; elements modelled post-str() -/
  | listV (xs : List String)
  /-- a stamped xyz_data payload -/
  | xyz (d : XyzData)
  /-- the plot_data dict forced into a viewer input (lines 182-192) -/
  | plotOut (folder_name folder_path result_path : String)
  /-- any other value -/
  | otherV
deriving Repr

structure PNode where
  class_type : String := ""
  inputs : Option (List (String × PValue)) := none
deriving Repr

def Prompt := List (PKey × PNode)

def promptGet (p : Prompt) (k : PKey) : Option PNode :=
  match p with
  | [] => none
  | (k', n) :: rest => if k' = k then some n else promptGet rest k

/-- In-place mutation of the node stored under an existing key. -/
def promptSet (p : Prompt) (k : PKey) (n : PNode) : Prompt :=
  match p with
  | [] => []
  | (k', n') :: rest => if k' = k then (k, n) :: rest else (k', n') :: promptSet rest k n

def alistGet (l : List (String × PValue)) (key : String) : Option PValue :=
  match l with
  | [] => none
  | (k, v) :: rest => if k = key then some v else alistGet rest key

def alistHas (l : List (String × PValue)) (key : String) : Bool :=
  (alistGet l key).isSome

/-- Python dict assignment d[key] = v: overwrite the existing entry, or
append a new one. -/
def alistSet (l : List (String × PValue)) (key : String) (v : PValue) : List (String × PValue) :=
  match l with
  | [] => [(key, v)]
  | (k, v') :: rest => if k = key then (key, v) :: rest else (k, v') :: alistSet rest key v

/-- src/nodes.py lines 107-113.  _ensure_prompt_node: look the node up under
the string key, fall back to the integer key when the id is numeric, raise
ValueError otherwise.  The matched key is returned alongside the node so that
in-place mutation of the aliased dict can be expressed functionally. -/
def _ensure_prompt_node (prompt : Prompt) (node_id : String) : Except String (PKey × PNode) :=
  match promptGet prompt (.strKey node_id) with
  | some n => .ok (.strKey node_id, n)
  | none =>
    let viaInt :=
      if isDigitStr node_id.data then
        promptGet prompt (.intKey (numOfDigits node_id.data : Int))
      else none
    match viaInt with
    | some n => .ok (.intKey (numOfDigits node_id.data : Int), n)
    | none => .error ("Node id '" ++ node_id ++ "' does not exist in prompt.")

/-- src/nodes.py lines 116-124.  _set_axis_value mutates the prompt in place:
the returned prompt reflects everything mutated before a ValueError (the
setdefault of an empty inputs dict happens even when the widget lookup then
fails); the optional string is the raised error message. -/
def _set_axis_value (prompt : Prompt) (axis_ref : InputRef) (value : String) :
    Prompt × Option String :=
  match _ensure_prompt_node prompt axis_ref.node_id with
  | .error e => (prompt, some e)
  | .ok (k, node) =>
    let node_inputs := node.inputs.getD []
    if alistHas node_inputs axis_ref.widget_name then
      (promptSet prompt k
        { node with inputs := some (alistSet node_inputs axis_ref.widget_name (.str value)) },
       none)
    else
      (promptSet prompt k { node with inputs := some node_inputs },
       some ("Widget '" ++ axis_ref.widget_name ++ "' was not found on node #" ++
             axis_ref.node_id ++ " (" ++ axis_ref.node_title ++ ")."))

/-! ## Manifest result tree (src/nodes.py lines 207-251) -/

/-- A node of the JSON result tree: either a leaf image slot
{uuid, type:"img", filename, src} or an axis node {type:"axis", value, children}. -/
inductive RTree where
  | img (uuid filename src : String)
  | axisN (value : String) (children : List RTree)

def RTree.children : RTree → List RTree
  | .img _ _ _ => []
  | .axisN _ c => c

def RTree.isImg : RTree → Bool
  | .img _ _ _ => true
  | .axisN _ _ => false

mutual

/-- Leaf (image slot) count of a tree node. -/
def leafCount : RTree → Nat
  | .img _ _ _ => 1
  | .axisN _ c => leafCountList c

/-- Leaf count of a forest. -/
def leafCountList : List RTree → Nat
  | [] => 0
  | t :: rest => leafCount t + leafCountList rest

end

/-- One leaf record: uuid f"{folder}:{ix}:{iy}:{iz}:{batch}", the coordinate
filename and the preview src (src/nodes.py lines 226-233 / 238-245). -/
def imgLeaf (folder_name : String) (ix iy iz : Int) (batch_index : Nat) : RTree :=
  let filename := _image_filename ix iy iz batch_index
  .img (folder_name ++ ":" ++ intStr ix ++ ":" ++ intStr iy ++ ":" ++ intStr iz ++ ":" ++
        natStr batch_index)
       filename (_preview_src folder_name filename)

/-- src/nodes.py lines 207-251.  _build_result_tree: nested accumulation
loops over enumerate(values) are expressed as maps over List.enum. -/
def _build_result_tree (folder_name : String) (values_x values_y values_z : List String)
    (batch_size : Nat) : List RTree :=
  let has_z := values_z.length > 0
  values_x.enum.map (fun ixv =>
    .axisN ixv.2 (values_y.enum.map (fun iyv =>
      .axisN iyv.2
        (if has_z then
          values_z.enum.map (fun izv =>
            .axisN izv.2 ((List.range batch_size).map (fun b =>
              imgLeaf folder_name ixv.1 iyv.1 izv.1 b)))
        else
          (List.range batch_size).map (fun b =>
            imgLeaf folder_name ixv.1 iyv.1 (-1) b)))))

/-- src/nodes.py lines 254-267.  _build_annotations. -/
structure Annotation where
  axis : String
  key : String
  type : String

def _build_annotations (input_x input_y : InputRef) (input_z : Option InputRef) :
    List Annotation :=
  let mk := fun (axis : String) (r : InputRef) =>
    { axis := axis
      key := pyStrip ("#" ++ r.node_id ++ " " ++ r.node_title)
      type := r.widget_name }
  [mk "X" input_x, mk "Y" input_y] ++
    (match input_z with
     | some r => [mk "Z" r]
     | none => [])

/-- src/nodes.py lines 161-172.  _find_viewer_node_ids: every node whose
class_type is "ArtifyXYZViewer" and whose inputs["xyz_plot"] is a 2-element
link list pointing at the plot node. -/
def _find_viewer_node_ids (prompt : Prompt) (plot_node_id : String) : List String :=
  prompt.filterMap (fun kn =>
    if kn.2.class_type = "ArtifyXYZViewer" then
      match alistGet (kn.2.inputs.getD []) "xyz_plot" with
      | some (.listV xs) =>
        if xs.length = 2 && xs.headD "" = plot_node_id then some (pkeyStr kn.1) else none
      | _ => none
    else none)

/-- src/nodes.py lines 175-194.  _prepare_viewer_refresh_prompt: deep copy,
then force inputs["xyz_plot"] of every listed viewer node to the folder
plot_data record; _ensure_prompt_node failures propagate as ValueError. -/
def _prepare_viewer_refresh_prompt (prompt : Prompt) (viewer_ids : List String)
    (folder_name folder_path : String) : Except String Prompt :=
  match viewer_ids with
  | [] => .ok prompt
  | vid :: rest =>
    match _ensure_prompt_node prompt vid with
    | .error e => .error e
    | .ok (k, node) =>
      let ins := node.inputs.getD []
      _prepare_viewer_refresh_prompt
        (promptSet prompt k
          { node with inputs := some (alistSet ins "xyz_plot"
              (.plotOut folder_name folder_path (folder_path ++ "/result.json"))) })
        rest folder_name folder_path

/-! ## ArtifyXYZPlot.execute (src/nodes.py lines 556-727)

The method is embedded as a function from its arguments, the hidden
execution context and an environment (output root, clock, client id, a
folder-existence oracle) to either an error or a plot-data output, in both
cases paired with the ordered trace of side effects performed before
returning or raising. -/

/-- The hidden execution context (cls.hidden). -/
structure ExecCtx where
  prompt : Option Prompt := none
  unique_id : Option String := none
  /-- cls.hidden.extra_pnginfo carries a "workflow" entry -/
  hasWorkflowInfo : Bool := false

/-- The keyword arguments of execute; images is the incoming batch, modelled
by its batch size (pixel content is irrelevant to every claim).  A non-dict
input_x / input_y / input_z (e.g. a raw string wired in) is modelled as none. -/
structure ExecArgs where
  images : Nat
  input_x : Option InputRef
  input_y : Option InputRef
  value_x : String
  value_y : String
  output_folder_name : String
  archive_existing : Bool := true
  input_z : Option InputRef := none
  value_z : String := ""

/-- The ambient process state consulted by execute. -/
structure Env where
  outputRoot : String
  /-- int(time.time()) at this invocation -/
  now : Nat
  clientId : Option String
  /-- os.path.exists on the output folder path -/
  folderExists : String → Bool

/-- The full manifest payload written to result.json
(src/nodes.py lines 620-639). -/
structure Manifest where
  format : String
  folder_name : String
  created_at : Nat
  values_x : List String
  values_y : List String
  values_z : List String
  batch_size : Nat
  annotations : List Annotation
  result : List RTree
  hasWorkflow : Bool

/-- One observable side effect of execute, in program order. -/
inductive Effect where
  /-- os.makedirs(path, exist_ok=True) -/
  | mkdirE (path : String)
  /-- shutil.move of the existing output folder to its archive name -/
  | renameE (src dst : String)
  /-- one image file written by _save_images -/
  | writeImageE (dir name : String)
  /-- the workflow.json snapshot write -/
  | writeWorkflowE (dir : String)
  /-- the result.json manifest write -/
  | writeManifestE (dir : String) (payload : Manifest)
  /-- one POST /prompt submission (_queue_prompt) -/
  | submitE (prompt : Prompt) (targets : List String) (client : Option String)

/-- Errors raised by execute (all ValueError in the source). -/
inductive ExecErr where
  /-- "input_x and input_y must be valid INPUT references. ..." (line 596) -/
  | validationAxisRef
  /-- "value_x and value_y must each contain at least one ..." (line 603) -/
  | validationEmptyValues
  /-- a ValueError message from _ensure_prompt_node or _set_axis_value -/
  | graphRef (msg : String)
deriving DecidableEq, Repr

/-- The NodeOutput plot_data dict (ui payload omitted: it repeats
folder_name and queued_jobs). -/
structure PlotData where
  folder_name : String
  folder_path : String
  result_path : String
  queued_jobs : Option Nat := none
  batch_size : Option Nat := none
deriving DecidableEq, Repr

def ExecResult := Except (ExecErr × List Effect) (PlotData × List Effect)

/-- src/nodes.py lines 70-71. -/
def _output_folder_path (outputRoot folder_name : String) : String :=
  outputRoot ++ "/" ++ folder_name

/-- The guard of lines 571 and 643: cls.hidden truthy, cls.hidden.prompt
truthy (non-None and non-empty), cls.hidden.unique_id not None. -/
def hiddenCtx : Option ExecCtx → Option (Prompt × String)
  | none => none
  | some c =>
    match c.prompt, c.unique_id with
    | some p, some uid => if p.isEmpty then none else some (p, uid)
    | _, _ => none

/-- inputs.get("xyz_data") read as a truthy stamped payload (line 575-577);
a stamped payload dict is never empty, so presence is truthiness. -/
def getXyzData (node : PNode) : Option XyzData :=
  match alistGet (node.inputs.getD []) "xyz_data" with
  | some (.xyz d) => some d
  | _ => none

/-- src/nodes.py lines 197-204.  _save_images: makedirs, then one JPEG write
per batch element at the coordinate filename. -/
def saveImagesEffects (images : Nat) (output_folder : String) (ix iy iz : Int) :
    List Effect :=
  .mkdirE output_folder ::
    (List.range images).map (fun (b : Nat) =>
      .writeImageE output_folder (_image_filename ix iy iz (b : Int)))

/-- One planned cell: enumerate indices and values for x and y, and the
optional z enumeration entry. -/
structure Cell where
  ix : Nat
  vx : String
  iy : Nat
  vy : String
  z : Option (Nat × String)

/-- The enumeration order of the nested fan-out loops
(src/nodes.py lines 661-702): outer x, middle y, inner z when active. -/
def planCellsY (ix : Nat) (vx : String) (has_z : Bool) (values_z : List String) :
    List (Nat × String) → List Cell
  | [] => []
  | (iy, vy) :: rest =>
    (if has_z then values_z.enum.map (fun izv => ⟨ix, vx, iy, vy, some izv⟩)
     else [⟨ix, vx, iy, vy, none⟩]) ++ planCellsY ix vx has_z values_z rest

def planCellsX (has_z : Bool) (values_y values_z : List String) :
    List (Nat × String) → List Cell
  | [] => []
  | (ix, vx) :: rest =>
    planCellsY ix vx has_z values_z values_y.enum ++ planCellsX has_z values_y values_z rest

def planCells (values_x values_y values_z : List String) (has_z : Bool) : List Cell :=
  planCellsX has_z values_y values_z values_x.enum

/-- The body of one fan-out iteration: deep-copy the base prompt (value
semantics make the copy implicit), pin the axis widgets, stamp the
side-channel payload onto the originating node.  Returns the prompt to
submit, or the ValueError raised mid-mutation. -/
def submitOne (prompt : Prompt) (uid : String) (rx ry : InputRef) (rz : Option InputRef)
    (folder_name : String) (c : Cell) : Except ExecErr Prompt :=
  let (p1, e1) := _set_axis_value prompt rx c.vx
  match e1 with
  | some m => .error (.graphRef m)
  | none =>
    let (p2, e2) := _set_axis_value p1 ry c.vy
    match e2 with
    | some m => .error (.graphRef m)
    | none =>
      let (p3, e3) :=
        match c.z, rz with
        | some izv, some rzr => _set_axis_value p2 rzr izv.2
        | _, _ => (p2, none)
      match e3 with
      | some m => .error (.graphRef m)
      | none =>
        let payload : XyzData :=
          { source_unique_id := some uid
            output_folder_name := some folder_name
            x_index := some (c.ix : Int)
            y_index := some (c.iy : Int)
            z_index := some (match c.z with | some izv => (izv.1 : Int) | none => -1) }
        match _ensure_prompt_node p3 uid with
        | .error m => .error (.graphRef m)
        | .ok (k, node) =>
          let ins := node.inputs.getD []
          .ok (promptSet p3 k { node with inputs := some (alistSet ins "xyz_data" (.xyz payload)) })

/-- The fan-out loop: submit each cell in order, counting queued jobs;
a mutation error aborts with the submissions made so far in the trace. -/
def runCells (prompt : Prompt) (uid : String) (rx ry : InputRef) (rz : Option InputRef)
    (folder_name : String) (client : Option String) :
    List Cell → Except (ExecErr × List Effect) (Nat × List Effect)
  | [] => .ok (0, [])
  | c :: rest =>
    match submitOne prompt uid rx ry rz folder_name c with
    | .error e => .error (e, [])
    | .ok stamped =>
      match runCells prompt uid rx ry rz folder_name client rest with
      | .error (e, tr) => .error (e, .submitE stamped [uid] client :: tr)
      | .ok (q, tr) => .ok (q + 1, .submitE stamped [uid] client :: tr)

/-- State COMPLETE (src/nodes.py lines 577-593): the side-channel payload is
present; resolve folder and coordinate from it and persist the batch. -/
def completePhase (env : Env) (a : ExecArgs) (folder_name : String) (d : XyzData) :
    ExecResult :=
  let folder_name := _sanitize_folder_name (d.output_folder_name.getD folder_name)
  let output_folder := _output_folder_path env.outputRoot folder_name
  let tr := saveImagesEffects a.images output_folder
    (d.x_index.getD 0) (d.y_index.getD 0) (d.z_index.getD (-1))
  .ok ({ folder_name := folder_name
         folder_path := output_folder
         result_path := output_folder ++ "/result.json" }, tr)

/-- State PLAN (src/nodes.py lines 595-727): validate, archive, build and
write the manifest, then (when graph context is available) fan out one
submission per cell and finally one viewer refresh submission. -/
def planPhase (env : Env) (a : ExecArgs) (folder_name : String)
    (ctx : Option (Prompt × String)) (hasWf : Bool) : ExecResult :=
  match a.input_x, a.input_y with
  | some rx, some ry =>
    let values_x := _split_values a.value_x
    let values_y := _split_values a.value_y
    let values_z := _split_values a.value_z
    if values_x.isEmpty || values_y.isEmpty then .error (.validationEmptyValues, [])
    else
      let output_folder := _output_folder_path env.outputRoot folder_name
      let tr0 : List Effect :=
        if a.archive_existing && env.folderExists output_folder then
          [.renameE output_folder (output_folder ++ "_old_" ++ natStr env.now)]
        else []
      let batch_size := a.images
      let result_tree := _build_result_tree folder_name values_x values_y values_z batch_size
      let payload : Manifest :=
        { format := "artify_xyz_plot_v1"
          folder_name := folder_name
          created_at := env.now
          values_x := values_x
          values_y := values_y
          values_z := values_z
          batch_size := batch_size
          annotations := _build_annotations rx ry a.input_z
          result := result_tree
          hasWorkflow := hasWf }
      let tr1 := tr0 ++ (if hasWf then [.mkdirE output_folder, .writeWorkflowE output_folder] else [])
      let tr2 := tr1 ++ [.mkdirE output_folder, .writeManifestE output_folder payload]
      match ctx with
      | none =>
        .ok ({ folder_name := folder_name
               folder_path := output_folder
               result_path := output_folder ++ "/result.json"
               queued_jobs := some 0
               batch_size := some batch_size }, tr2)
      | some (prompt, uid) =>
        let viewer_ids := _find_viewer_node_ids prompt uid
        let has_z := a.input_z.isSome && !values_z.isEmpty
        let cells := planCells values_x values_y values_z has_z
        match runCells prompt uid rx ry a.input_z folder_name env.clientId cells with
        | .error (e, trc) => .error (e, tr2 ++ trc)
        | .ok (queued, trc) =>
          match
            (if viewer_ids.isEmpty then .ok []
             else
               match _prepare_viewer_refresh_prompt prompt viewer_ids folder_name output_folder with
               | .error m => .error (ExecErr.graphRef m)
               | .ok vp => .ok [Effect.submitE vp viewer_ids env.clientId] :
                 Except ExecErr (List Effect))
          with
          | .error e => .error (e, tr2 ++ trc)
          | .ok trv =>
            .ok ({ folder_name := folder_name
                   folder_path := output_folder
                   result_path := output_folder ++ "/result.json"
                   queued_jobs := some queued
                   batch_size := some batch_size }, tr2 ++ trc ++ trv)
  | _, _ => .error (.validationAxisRef, [])

/-- src/nodes.py lines 556-727.  ArtifyXYZPlot.execute. -/
def execute (env : Env) (hidden : Option ExecCtx) (a : ExecArgs) : ExecResult :=
  let folder_name := _sanitize_folder_name a.output_folder_name
  let hasWf := match hidden with | some c => c.hasWorkflowInfo | none => false
  match hiddenCtx hidden with
  | some (prompt, uid) =>
    match _ensure_prompt_node prompt uid with
    | .error m => .error (.graphRef m, [])
    | .ok (_, current_node) =>
      match getXyzData current_node with
      | some d => completePhase env a folder_name d
      | none => planPhase env a folder_name (some (prompt, uid)) hasWf
  | none => planPhase env a folder_name none hasWf

/-! ## Trace observations -/

def countSubmits : List Effect → Nat
  | [] => 0
  | .submitE _ _ _ :: rest => countSubmits rest + 1
  | _ :: rest => countSubmits rest

def countManifestWrites : List Effect → Nat
  | [] => 0
  | .writeManifestE _ _ :: rest => countManifestWrites rest + 1
  | _ :: rest => countManifestWrites rest

def countImageWrites : List Effect → Nat
  | [] => 0
  | .writeImageE _ _ :: rest => countImageWrites rest + 1
  | _ :: rest => countImageWrites rest

def countRenames : List Effect → Nat
  | [] => 0
  | .renameE _ _ :: rest => countRenames rest + 1
  | _ :: rest => countRenames rest

def trOf : ExecResult → List Effect
  | .error (_, tr) => tr
  | .ok (_, tr) => tr

def errOf : ExecResult → Option ExecErr
  | .error (e, _) => some e
  | .ok _ => none

def outOf : ExecResult → Option PlotData
  | .error _ => none
  | .ok (o, _) => some o

end Artify.Nodes

namespace Artify

/-! ## Lemmas about the sanitizer pipeline -/

theorem removeDD_cons_ne (c : Char) (rest : List Char) (h : c ≠ '.') :
    removeDD (c :: rest) = c :: removeDD rest := by
  rw [removeDD.eq_def]
  split
  · rename_i heq; exact absurd heq (by simp)
  · rename_i heq; rw [List.cons.injEq] at heq; exact absurd heq.1 h
  · rename_i heq; rw [List.cons.injEq] at heq; rw [heq.1, heq.2]

theorem removeDD_dot (rest : List Char) (h : ∀ rs, rest ≠ '.' :: rs) :
    removeDD ('.' :: rest) = '.' :: removeDD rest := by
  rw [removeDD.eq_def]
  split
  · rename_i heq; exact absurd heq (by simp)
  · rename_i heq; rw [List.cons.injEq] at heq; exact absurd heq.2 (h _)
  · rename_i heq; rw [List.cons.injEq] at heq; rw [heq.1, heq.2]

theorem removeDD_dd (rest : List Char) : removeDD ('.' :: '.' :: rest) = removeDD rest := rfl

theorem removeDD_cons_of_not_dd (c : Char) (rest : List Char)
    (h : ∀ rs, c = '.' → rest = '.' :: rs → False) :
    removeDD (c :: rest) = c :: removeDD rest := by
  by_cases hc : c = '.'
  · subst hc; exact removeDD_dot rest (fun rs hr => h rs rfl hr)
  · exact removeDD_cons_ne c rest hc

theorem mem_removeDD {a : Char} : ∀ {l : List Char}, a ∈ removeDD l → a ∈ l := by
  intro l
  induction l using removeDD.induct with
  | case1 => intro h; exact absurd h (List.not_mem_nil a)
  | case2 rest ih => intro h; have := ih h; simp [this]
  | case3 c rest hne ih =>
    intro h
    rw [removeDD_cons_of_not_dd c rest hne] at h
    rcases List.mem_cons.mp h with h | h
    · exact h ▸ List.mem_cons_self c rest
    · exact List.mem_cons_of_mem c (ih h)

/-- The head of removeDD output is a dot only when the input head is. -/
theorem removeDD_head_ne_dot {rest : List Char} (h : ∀ rs, rest ≠ '.' :: rs) :
    ∀ b, removeDD rest ≠ '.' :: b := by
  intro b
  match rest, h with
  | [], _ => simp [removeDD]
  | d :: rs, h =>
    have hd : d ≠ '.' := fun hdd => h rs (by rw [hdd])
    rw [removeDD_cons_ne d rs hd]
    intro heq
    rw [List.cons.injEq] at heq
    exact hd heq.1

/-- Python str.replace("..", "") leaves no ".." occurrence behind: a removed
occurrence cannot recombine, because a surviving dot is never followed by a
dot in the input. -/
theorem removeDD_no_dd : ∀ (l : List Char) (a b : List Char),
    removeDD l ≠ a ++ '.' :: '.' :: b := by
  intro l
  induction l using removeDD.induct with
  | case1 => intro a b; simp [removeDD]
  | case2 rest ih => intro a b; rw [removeDD_dd]; exact ih a b
  | case3 c rest hne ih =>
    intro a b
    rw [removeDD_cons_of_not_dd c rest hne]
    intro heq
    match a, heq with
    | [], heq =>
      rw [List.nil_append, List.cons.injEq] at heq
      have hc : c = '.' := heq.1
      have hrest : ∀ rs, rest ≠ '.' :: rs := fun rs hr => hne rs hc hr
      exact removeDD_head_ne_dot hrest b heq.2
    | c' :: a', heq =>
      rw [List.cons_append, List.cons.injEq] at heq
      exact ih a' b heq.2

theorem no_dd_of_not_mem {l : List Char} (h : '.' ∉ l) :
    ∀ a b, l ≠ a ++ '.' :: '.' :: b := by
  intro a b heq
  apply h
  rw [heq]
  simp

theorem mem_stripSlashL {a : Char} {l : List Char} (h : a ∈ stripSlashL l) : a ∈ l := by
  unfold stripSlashL at h
  rw [List.mem_reverse] at h
  have h2 := (List.dropWhile_sublist _).mem h
  rw [List.mem_reverse] at h2
  exact (List.dropWhile_sublist _).mem h2

theorem mem_pyStripL {a : Char} {l : List Char} (h : a ∈ pyStripL l) : a ∈ l := by
  unfold pyStripL at h
  rw [List.mem_reverse] at h
  have h2 := (List.dropWhile_sublist _).mem h
  rw [List.mem_reverse] at h2
  exact (List.dropWhile_sublist _).mem h2

theorem backslashToSlash_no_backslash {l : List Char} : '\\' ∉ backslashToSlash l := by
  intro h
  unfold backslashToSlash at h
  rcases List.mem_map.mp h with ⟨d, _, hd⟩
  by_cases hdd : d = '\\' <;> simp [hdd] at hd

end Artify

namespace Artify.Claims

open Artify.Nodes

/-- The route-module sanitizer is exactly the shared cleaning pipeline. -/
theorem routes_sanitize_data (s : String) :
    (Routes._sanitize_folder_name s).data =
      removeDD (stripSlashL (backslashToSlash (pyStripL s.data))) := rfl

/-- The node-module sanitizer is the same pipeline plus the empty fallback. -/
theorem nodes_sanitize_eq (s : String) :
    Nodes._sanitize_folder_name s =
      if (Routes._sanitize_folder_name s).data = [] then "xyz_plot_artify"
      else Routes._sanitize_folder_name s := rfl

/-- C2: the node-module and route-module folder-name sanitizers run the same
cleaning pipeline (trim, backslash normalization, slash strip, ".." removal)
and agree whenever the cleaned result is non-empty; when cleaning yields the
empty string the node module substitutes the fallback "xyz_plot_artify"
while the route module returns the empty string (the claimed everywhere-equal
fallback behaviour fails, see the counterexample). -/
theorem C2_sanitize_agree_up_to_fallback (s : String) :
    (Routes._sanitize_folder_name s ≠ "" →
      Nodes._sanitize_folder_name s = Routes._sanitize_folder_name s) ∧
    (Routes._sanitize_folder_name s = "" →
      Nodes._sanitize_folder_name s = "xyz_plot_artify") := by
  constructor
  · intro hne
    have hd : (Routes._sanitize_folder_name s).data ≠ [] := by
      intro h
      apply hne
      apply String.ext
      rw [h]
    rw [nodes_sanitize_eq, if_neg hd]
  · intro he
    have hd : (Routes._sanitize_folder_name s).data = [] := by rw [he]
    rw [nodes_sanitize_eq, if_pos hd]

/-- C2 counterexample: on the empty input the two sanitizers disagree, so
they do not compute the same result for every input string. -/
theorem C2_counterexample :
    Nodes._sanitize_folder_name "" ≠ Routes._sanitize_folder_name "" := by decide

/-- C2 witness: the agreement branch at "a" and the fallback branch at "". -/
theorem C2_witness :
    Nodes._sanitize_folder_name "a" = Routes._sanitize_folder_name "a" ∧
    Nodes._sanitize_folder_name "" = "xyz_plot_artify" :=
  ⟨(C2_sanitize_agree_up_to_fallback "a").1 (by decide),
   (C2_sanitize_agree_up_to_fallback "").2 (by decide)⟩

/-- C10: for every input string the node-module _sanitize_folder_name returns
a non-empty string containing no backslash and no occurrence of the
substring "..". -/
theorem C10_sanitize_invariants (s : String) :
    Nodes._sanitize_folder_name s ≠ "" ∧
    '\\' ∉ (Nodes._sanitize_folder_name s).data ∧
    ∀ a b, (Nodes._sanitize_folder_name s).data ≠ a ++ '.' :: '.' :: b := by
  by_cases hv : (Routes._sanitize_folder_name s).data = []
  · rw [nodes_sanitize_eq, if_pos hv]
    exact ⟨by decide, by decide, no_dd_of_not_mem (by decide)⟩
  · rw [nodes_sanitize_eq, if_neg hv]
    refine ⟨fun h0 => hv (congrArg String.data h0), ?_, ?_⟩
    · intro hmem
      rw [routes_sanitize_data] at hmem
      exact backslashToSlash_no_backslash (mem_stripSlashL (mem_removeDD hmem))
    · intro a b
      rw [routes_sanitize_data]
      exact removeDD_no_dd _ a b

end Artify.Claims
namespace Artify

theorem dropWhile_head?_false {p : Char → Bool} :
    ∀ {l : List Char} {a : Char}, (l.dropWhile p).head? = some a → p a = false := by
  intro l
  induction l with
  | nil => intro a h; simp [List.dropWhile] at h
  | cons c rest ih =>
    intro a h
    rw [List.dropWhile_cons] at h
    by_cases hc : p c
    · rw [if_pos hc] at h; exact ih h
    · rw [if_neg hc] at h
      rw [List.head?_cons, Option.some.injEq] at h
      rw [← h]
      exact Bool.not_eq_true _ ▸ hc

theorem dropWhile_idem {p : Char → Bool} : ∀ l : List Char,
    (l.dropWhile p).dropWhile p = l.dropWhile p := by
  intro l
  induction l with
  | nil => rfl
  | cons c rest ih =>
    rw [List.dropWhile_cons]
    by_cases hc : p c
    · rw [if_pos hc]; exact ih
    · rw [if_neg hc, List.dropWhile_cons, if_neg hc]

theorem dropWhile_eq_self_of_head {p : Char → Bool} {l : List Char}
    (h : ∀ a, l.head? = some a → p a = false) : l.dropWhile p = l := by
  cases l with
  | nil => rfl
  | cons c rest =>
    rw [List.dropWhile_cons, if_neg]
    rw [h c rfl]
    exact Bool.false_ne_true

theorem pyStripL_drop_self (l : List Char) :
    (pyStripL l).dropWhile isPyWs = pyStripL l := by
  apply dropWhile_eq_self_of_head
  intro a ha
  have ha2 : ((l.dropWhile isPyWs).reverse.dropWhile isPyWs).getLast? = some a := by
    rw [← List.head?_reverse]
    exact ha
  by_cases hx : (l.dropWhile isPyWs).reverse.dropWhile isPyWs = []
  · rw [hx] at ha2; simp at ha2
  · rcases List.dropWhile_suffix (l := (l.dropWhile isPyWs).reverse) isPyWs with ⟨t, ht⟩
    have hA : ((l.dropWhile isPyWs).reverse).getLast? = some a := by
      rw [← ht, List.getLast?_append_of_ne_nil _ hx]
      exact ha2
    have hB : (l.dropWhile isPyWs).head? = some a := by
      rw [← List.reverse_reverse (l.dropWhile isPyWs), List.head?_reverse]
      exact hA
    exact dropWhile_head?_false hB

theorem pyStripL_reverse_drop_self (l : List Char) :
    (pyStripL l).reverse.dropWhile isPyWs = (pyStripL l).reverse := by
  show (((l.dropWhile isPyWs).reverse.dropWhile isPyWs).reverse).reverse.dropWhile isPyWs = _
  rw [List.reverse_reverse]
  rw [dropWhile_idem]
  exact (List.reverse_reverse _).symm

theorem pyStripL_idem (l : List Char) : pyStripL (pyStripL l) = pyStripL l :=
  calc pyStripL (pyStripL l)
      = (((pyStripL l).dropWhile isPyWs).reverse.dropWhile isPyWs).reverse := rfl
    _ = ((pyStripL l).reverse.dropWhile isPyWs).reverse := by rw [pyStripL_drop_self]
    _ = ((pyStripL l).reverse).reverse := by rw [pyStripL_reverse_drop_self]
    _ = pyStripL l := List.reverse_reverse _

theorem mem_dropWhile_of_mem {p : Char → Bool} {a : Char} (ha : p a = false) :
    ∀ {l : List Char}, a ∈ l → a ∈ l.dropWhile p := by
  intro l
  induction l with
  | nil => intro h; cases h
  | cons c rest ih =>
    intro h
    rw [List.dropWhile_cons]
    by_cases hc : p c
    · rw [if_pos hc]
      rcases List.mem_cons.mp h with heq | hm
      · rw [heq] at ha; rw [ha] at hc; cases hc
      · exact ih hm
    · rw [if_neg hc]; exact h

theorem mem_pyStripL_of_mem {a : Char} (ha : isPyWs a = false) {l : List Char}
    (h : a ∈ l) : a ∈ pyStripL l := by
  unfold pyStripL
  rw [List.mem_reverse]
  apply mem_dropWhile_of_mem ha
  rw [List.mem_reverse]
  exact mem_dropWhile_of_mem ha h

end Artify
namespace Artify.Claims

open Artify.Nodes

/-- C9: the value-list splitter splits on ";" when one is present, otherwise
on "," when one is present, otherwise treats the whole non-empty (stripped)
string as a single value; every produced element is trimmed and empty
elements are dropped; empty or whitespace-only input yields the empty list;
and the concrete example from the spec holds. -/
theorem C9_split_values (raw : String) :
    ((';' ∈ raw.data) →
      _split_values raw =
        (((splitChar ';' (pyStripL raw.data)).map pyStripL).filter
          (fun v => v ≠ [])).map (fun v => (⟨v⟩ : String))) ∧
    ((';' ∉ raw.data) → (',' ∈ raw.data) →
      _split_values raw =
        (((splitChar ',' (pyStripL raw.data)).map pyStripL).filter
          (fun v => v ≠ [])).map (fun v => (⟨v⟩ : String))) ∧
    ((';' ∉ raw.data) → (',' ∉ raw.data) → pyStripL raw.data ≠ [] →
      _split_values raw = [pyStrip raw]) ∧
    (pyStripL raw.data = [] → _split_values raw = []) ∧
    (∀ v ∈ _split_values raw, v ≠ "" ∧ pyStrip v = v) ∧
    _split_values "  a ; b ;;c " = ["a", "b", "c"] := by
  refine ⟨?_, ?_, ?_, ?_, ?_, by decide⟩
  · intro h
    have hm : ';' ∈ pyStripL raw.data := mem_pyStripL_of_mem (by decide) h
    have hne : pyStripL raw.data ≠ [] := fun h0 => by rw [h0] at hm; cases hm
    have hc : (pyStripL raw.data).contains ';' = true := List.elem_iff.mpr hm
    simp only [_split_values, if_neg hne, hc, if_pos]
  · intro h h2
    have hnm : ';' ∉ pyStripL raw.data := fun hm => h (mem_pyStripL hm)
    have hc : (pyStripL raw.data).contains ';' = false := by
      rw [← Bool.not_eq_true]
      intro hb
      exact hnm (List.elem_iff.mp hb)
    have hm2 : ',' ∈ pyStripL raw.data := mem_pyStripL_of_mem (by decide) h2
    have hne : pyStripL raw.data ≠ [] := fun h0 => by rw [h0] at hm2; cases hm2
    have hc2 : (pyStripL raw.data).contains ',' = true := List.elem_iff.mpr hm2
    simp only [_split_values, if_neg hne, hc, hc2, if_pos, Bool.false_eq_true, if_false]
  · intro h h2 hne
    have hnm : ';' ∉ pyStripL raw.data := fun hm => h (mem_pyStripL hm)
    have hc : (pyStripL raw.data).contains ';' = false := by
      rw [← Bool.not_eq_true]
      intro hb
      exact hnm (List.elem_iff.mp hb)
    have hnm2 : ',' ∉ pyStripL raw.data := fun hm => h2 (mem_pyStripL hm)
    have hc2 : (pyStripL raw.data).contains ',' = false := by
      rw [← Bool.not_eq_true]
      intro hb
      exact hnm2 (List.elem_iff.mp hb)
    simp only [_split_values, if_neg hne, hc, hc2, Bool.false_eq_true, if_false]
    rw [List.map_cons, List.map_nil, pyStripL_idem]
    rw [List.filter_cons, if_pos (decide_eq_true hne)]
    rfl
  · intro h
    simp only [_split_values, if_pos h]
  · intro v hv
    revert hv
    simp only [_split_values]
    by_cases h0 : pyStripL raw.data = []
    · rw [if_pos h0]
      intro hv
      cases hv
    · rw [if_neg h0]
      intro hv
      rcases List.mem_map.mp hv with ⟨w, hw, hvw⟩
      rcases List.mem_filter.mp hw with ⟨hwmem, hwne⟩
      rcases List.mem_map.mp hwmem with ⟨u, _, huw⟩
      have hwn : w ≠ [] := by simpa using hwne
      constructor
      · rw [← hvw]
        intro hs
        exact hwn (congrArg String.data hs)
      · rw [← hvw]
        show (⟨pyStripL w⟩ : String) = ⟨w⟩
        rw [← huw, pyStripL_idem]

/-- C9 witness: each implication of C9_split_values discharged at a concrete
input. -/
theorem C9_split_values_witness :
    _split_values "a,b" =
      (((splitChar ',' (pyStripL "a,b".data)).map pyStripL).filter
        (fun v => v ≠ [])).map (fun v => (⟨v⟩ : String)) ∧
    _split_values "ab" = [pyStrip "ab"] ∧
    _split_values "  " = [] :=
  ⟨(C9_split_values "a,b").2.1 (by decide) (by decide),
   (C9_split_values "ab").2.2.1 (by decide) (by decide) (by decide),
   (C9_split_values "  ").2.2.2.1 (by decide)⟩

end Artify.Claims
namespace Artify

example (l : List Char) :
    splitSepOnce ('#' :: l) =
      match splitSepOnce l with
      | none => none
      | some (a, b) => some ('#' :: a, b) := rfl

theorem splitSepOnce_cons_hash (l : List Char) :
    splitSepOnce ('#' :: l) =
      match splitSepOnce l with
      | none => none
      | some (a, b) => some ('#' :: a, b) := rfl

theorem pyStrip_self_parts {l : List Char} (h : pyStripL l = l) :
    l.dropWhile isPyWs = l ∧ l.reverse.dropWhile isPyWs = l.reverse := by
  have hlen2 : ((l.dropWhile isPyWs).reverse.dropWhile isPyWs).length = l.length := by
    have h' : ((l.dropWhile isPyWs).reverse.dropWhile isPyWs).reverse = l := h
    have := congrArg List.length h'
    rw [List.length_reverse] at this
    exact this
  have hle1 : (l.dropWhile isPyWs).length ≤ l.length :=
    (List.dropWhile_sublist _).length_le
  have hle2 : ((l.dropWhile isPyWs).reverse.dropWhile isPyWs).length ≤
      (l.dropWhile isPyWs).reverse.length :=
    (List.dropWhile_sublist _).length_le
  rw [List.length_reverse] at hle2
  have h1len : (l.dropWhile isPyWs).length = l.length := le_antisymm hle1 (hlen2 ▸ hle2)
  have h1 : l.dropWhile isPyWs = l :=
    (List.dropWhile_sublist _).eq_of_length h1len
  refine ⟨h1, ?_⟩
  rw [h1] at hlen2
  have h2 : l.reverse.dropWhile isPyWs = l.reverse :=
    (List.dropWhile_sublist _).eq_of_length (by rw [hlen2, List.length_reverse])
  exact h2

theorem isPyWs_hash : isPyWs '#' = false := rfl

theorem pyStripL_cons_hash {l : List Char} (h : pyStripL l = l) :
    pyStripL ('#' :: l) = '#' :: l := by
  rcases pyStrip_self_parts h with ⟨h1, h2⟩
  unfold pyStripL
  rw [List.dropWhile_cons, if_neg (by rw [isPyWs_hash]; exact Bool.false_ne_true)]
  rw [List.reverse_cons]
  have hdw : (l.reverse ++ ['#']).dropWhile isPyWs = l.reverse ++ ['#'] := by
    apply dropWhile_eq_self_of_head
    intro a ha
    cases hrl : l.reverse with
    | nil => rw [hrl] at ha; simp at ha; rw [← ha]; rfl
    | cons c cs =>
      rw [hrl, List.cons_append, List.head?_cons, Option.some.injEq] at ha
      have : (c :: cs).dropWhile isPyWs = c :: cs := by rw [← hrl]; exact h2
      cases hpc : isPyWs c with
      | false => rw [← ha]; exact hpc
      | true =>
        rw [List.dropWhile_cons, if_pos hpc] at this
        have := congrArg List.length this
        have hlen := (List.dropWhile_sublist (l := cs) isPyWs).length_le
        simp at this
        omega
  rw [hdw, List.reverse_append]
  simp

end Artify

namespace Artify.Claims

open Artify.Nodes

/-- C8: the axis-reference parser maps "3::MyNode::seed" to the structured
reference {node_id "3", node_title "MyNode", widget_name "seed"}; a leading
"#" on the node id is stripped; empty or whitespace-only input and the
sentinel "none" (the stripped value) parse to absent; any input whose
stripped value does not split into exactly 3 fields under "::" with
max-split 2 parses to absent.  The parser is a total function, so it never
raises. -/
theorem C8_parse_input_ref :
    _parse_input_ref "3::MyNode::seed" = some ⟨"3", "MyNode", "seed"⟩ ∧
    (∀ l p0 p1 p2 : List Char, pyStripL l = l → splitColons2 l = [p0, p1, p2] →
      _parse_input_ref ⟨'#' :: l⟩ = some ⟨⟨p0⟩, ⟨p1⟩, ⟨p2⟩⟩) ∧
    (∀ s : String, pyStripL s.data = [] → _parse_input_ref s = none) ∧
    (∀ s : String, pyStripL s.data = "none".data → _parse_input_ref s = none) ∧
    (∀ s : String, (splitColons2 (pyStripL s.data)).length ≠ 3 → _parse_input_ref s = none) := by
  refine ⟨by decide, ?_, ?_, ?_, ?_⟩
  · intro l p0 p1 p2 hstrip hsplit
    have hs1 : ∃ r, splitSepOnce l = some (p0, r) ∧ splitSepOnce r = some (p1, p2) := by
      unfold splitColons2 at hsplit
      cases h1 : splitSepOnce l with
      | none => rw [h1] at hsplit; cases hsplit
      | some ar =>
        obtain ⟨a, r⟩ := ar
        rw [h1] at hsplit
        dsimp only at hsplit
        cases h2 : splitSepOnce r with
        | none => rw [h2] at hsplit; dsimp only at hsplit; simp at hsplit
        | some br =>
          obtain ⟨b, r2⟩ := br
          rw [h2] at hsplit
          dsimp only at hsplit
          simp at hsplit
          rw [hsplit.2.1, hsplit.2.2] at h2
          exact ⟨r, by rw [hsplit.1], h2⟩
    obtain ⟨r, hr1, hr2⟩ := hs1
    have hsh : pyStripL ('#' :: l) = '#' :: l := pyStripL_cons_hash hstrip
    have hsc : splitColons2 ('#' :: l) = ['#' :: p0, p1, p2] := by
      unfold splitColons2
      rw [splitSepOnce_cons_hash, hr1]
      dsimp only
      rw [hr2]
    have hguard : (decide ('#' :: l = []) || decide ('#' :: l = "none".data)) = false := by
      have d1 : decide ('#' :: l = []) = false := decide_eq_false (by simp)
      have d2 : decide ('#' :: l = "none".data) = false := by
        apply decide_eq_false
        intro heq
        rw [show ("none".data : List Char) = 'n' :: "one".data from rfl, List.cons.injEq] at heq
        exact absurd heq.1 (by decide)
      rw [d1, d2]
      rfl
    show _parse_input_ref ⟨'#' :: l⟩ = _
    unfold _parse_input_ref
    have hdata : (String.data ⟨'#' :: l⟩) = '#' :: l := rfl
    rw [hdata, hsh]
    dsimp only
    rw [hguard]
    simp only [Bool.false_eq_true, if_false]
    rw [hsc]
    rfl
  · intro s h
    unfold _parse_input_ref
    rw [h]
    rfl
  · intro s h
    unfold _parse_input_ref
    rw [h]
    rfl
  · intro s h
    unfold _parse_input_ref
    by_cases hg : (decide (pyStripL s.data = []) || decide (pyStripL s.data = "none".data)) = true
    · rw [if_pos hg]
    · rw [if_neg hg]
      cases hsp : splitColons2 (pyStripL s.data) with
      | nil => rfl
      | cons a t1 =>
        cases t1 with
        | nil => rfl
        | cons b t2 =>
          cases t2 with
          | nil => rfl
          | cons c t3 =>
            cases t3 with
            | nil => rw [hsp] at h; simp at h
            | cons d t4 => rfl

/-- C8 witness: each implication of C8_parse_input_ref discharged at a
concrete input. -/
theorem C8_parse_input_ref_witness :
    _parse_input_ref "#3::T::w" = some ⟨"3", "T", "w"⟩ ∧
    _parse_input_ref " " = none ∧
    _parse_input_ref " none " = none ∧
    _parse_input_ref "a::b" = none :=
  ⟨C8_parse_input_ref.2.1 "3::T::w".data "3".data "T".data "w".data (by decide) (by decide),
   C8_parse_input_ref.2.2.1 " " (by decide),
   C8_parse_input_ref.2.2.2.1 " none " (by decide),
   C8_parse_input_ref.2.2.2.2 "a::b" (by decide)⟩

end Artify.Claims
namespace Artify

/-! ## Lemmas about decimal digits and the filename pattern -/

theorem digitVal_digitChar {m : Nat} (h : m < 10) : digitVal (digitChar m) = m := by
  interval_cases m <;> rfl

theorem isDigitChar_digitChar (m : Nat) : isDigitChar (digitChar m) = true := by
  rcases m with _|_|_|_|_|_|_|_|_|m <;> rfl

theorem pyLower_digitChar (m : Nat) : pyLower (digitChar m) = digitChar m := by
  rcases m with _|_|_|_|_|_|_|_|_|m <;> rfl

theorem mem_natDigitsAux {c : Char} :
    ∀ {fuel n : Nat}, c ∈ natDigitsAux fuel n → ∃ m, m < 10 ∧ c = digitChar m := by
  intro fuel
  induction fuel with
  | zero => intro n h; cases h
  | succ fuel ih =>
    intro n h
    rw [natDigitsAux] at h
    by_cases hn : n < 10
    · rw [if_pos hn] at h
      rcases List.mem_singleton.mp h with rfl
      exact ⟨n, hn, rfl⟩
    · rw [if_neg hn] at h
      rcases List.mem_append.mp h with h | h
      · exact ih h
      · rcases List.mem_singleton.mp h with rfl
        exact ⟨n % 10, Nat.mod_lt _ (by omega), rfl⟩

theorem mem_natDigits {c : Char} {n : Nat} (h : c ∈ natDigits n) :
    ∃ m, m < 10 ∧ c = digitChar m := mem_natDigitsAux h

theorem isDigitChar_of_mem_natDigits {c : Char} {n : Nat} (h : c ∈ natDigits n) :
    isDigitChar c = true := by
  rcases mem_natDigits h with ⟨m, _, rfl⟩
  exact isDigitChar_digitChar m

theorem map_pyLower_natDigits (n : Nat) : (natDigits n).map pyLower = natDigits n := by
  have : ∀ l : List Char, (∀ c ∈ l, pyLower c = c) → l.map pyLower = l := by
    intro l hl
    induction l with
    | nil => rfl
    | cons c rest ih =>
      rw [List.map_cons, hl c (List.mem_cons_self c rest),
        ih (fun d hd => hl d (List.mem_cons_of_mem c hd))]
  apply this
  intro c hc
  rcases mem_natDigits hc with ⟨m, _, rfl⟩
  exact pyLower_digitChar m

theorem natDigitsAux_ne_nil (fuel n : Nat) : natDigitsAux (fuel + 1) n ≠ [] := by
  rw [natDigitsAux]
  by_cases hn : n < 10
  · rw [if_pos hn]; simp
  · rw [if_neg hn]; simp

theorem natDigits_ne_nil (n : Nat) : natDigits n ≠ [] := natDigitsAux_ne_nil n n

theorem numOfDigits_append_one (l : List Char) (c : Char) :
    numOfDigits (l ++ [c]) = numOfDigits l * 10 + digitVal c := by
  unfold numOfDigits
  rw [List.foldl_append]
  rfl

theorem numOfDigits_natDigitsAux : ∀ {fuel n : Nat}, n < fuel →
    numOfDigits (natDigitsAux fuel n) = n := by
  intro fuel
  induction fuel with
  | zero => intro n h; omega
  | succ fuel ih =>
    intro n h
    rw [natDigitsAux]
    by_cases hn : n < 10
    · rw [if_pos hn]
      show 0 * 10 + digitVal (digitChar n) = n
      rw [digitVal_digitChar hn]
      omega
    · rw [if_neg hn]
      rw [numOfDigits_append_one]
      have hdiv : n / 10 < fuel := by
        have h1 : n / 10 < n := Nat.div_lt_self (by omega) (by omega)
        omega
      rw [ih hdiv, digitVal_digitChar (Nat.mod_lt _ (by omega))]
      omega

theorem numOfDigits_natDigits (n : Nat) : numOfDigits (natDigits n) = n :=
  numOfDigits_natDigitsAux (Nat.lt_succ_self n)

theorem intStr_ofNat (n : Nat) : intStr (n : Int) = natStr n := by
  unfold intStr
  rw [if_neg (by omega)]
  rfl

end Artify
namespace Artify.Nodes

theorem matchTail_cons_underscore (rest : List Char) :
    matchTail ('_' :: rest) =
      (match spanDigits rest with
       | (db, r2) =>
         if db = [] then none
         else
           match r2 with
           | '.' :: ext => if extOk ext = true then some (numOfDigits db) else none
           | _ => none) := rfl

theorem matchZTail_cons_uz (rest : List Char) :
    matchZTail ('_' :: 'z' :: rest) =
      (match spanDigits rest with
       | (dz, r2) =>
         if dz = [] then none
         else
           match matchTail r2 with
           | some b => some (numOfDigits dz, b)
           | none => none) := rfl

theorem matchFilenameL_cons_x (rest : List Char) :
    matchFilenameL ('x' :: rest) =
      (match spanDigits rest with
       | (dx, r2) =>
         if dx = [] then none
         else
           match r2 with
           | '_' :: 'y' :: r3 =>
             match spanDigits r3 with
             | (dy, r4) =>
               if dy = [] then none
               else
                 match matchZTail r4 with
                 | some (z, b) => some (numOfDigits dx, numOfDigits dy, some z, b)
                 | none =>
                   match matchTail r4 with
                   | some b => some (numOfDigits dx, numOfDigits dy, none, b)
                   | none => none
           | _ => none) := rfl

end Artify.Nodes

namespace Artify.Nodes

theorem takeWhile_digits_append {dl rest : List Char}
    (hall : ∀ c ∈ dl, isDigitChar c = true)
    (hr : ∀ c, rest.head? = some c → isDigitChar c = false) :
    (dl ++ rest).takeWhile isDigitChar = dl ∧ (dl ++ rest).dropWhile isDigitChar = rest := by
  induction dl with
  | nil =>
    simp only [List.nil_append]
    cases rest with
    | nil => exact ⟨rfl, rfl⟩
    | cons c cs =>
      have := hr c rfl
      rw [List.takeWhile_cons, List.dropWhile_cons, this]
      exact ⟨rfl, rfl⟩
  | cons d ds ih =>
    have hd := hall d (List.mem_cons_self d ds)
    have ihs := ih (fun c hc => hall c (List.mem_cons_of_mem d hc))
    rw [List.cons_append, List.takeWhile_cons, List.dropWhile_cons, hd]
    simp only [if_pos]
    exact ⟨by rw [ihs.1], by rw [ihs.2]⟩

theorem spanDigits_natDigits (n : Nat) (rest : List Char)
    (hr : ∀ c, rest.head? = some c → isDigitChar c = false) :
    spanDigits (natDigits n ++ rest) = (natDigits n, rest) := by
  unfold spanDigits
  rcases takeWhile_digits_append (fun c hc => isDigitChar_of_mem_natDigits hc) hr with ⟨h1, h2⟩
  rw [h1, h2]

theorem matchTail_form (b : Nat) :
    matchTail ('_' :: (natDigits b ++ ('.' :: "jpeg".data))) = some b := by
  rw [matchTail_cons_underscore]
  rw [spanDigits_natDigits b ('.' :: "jpeg".data) (fun c hc => by
    rw [List.head?_cons, Option.some.injEq] at hc
    rw [← hc]
    rfl)]
  dsimp only
  rw [if_neg (natDigits_ne_nil b)]
  rw [numOfDigits_natDigits]
  rfl

theorem matchZTail_form (zd b : Nat) :
    matchZTail ('_' :: 'z' :: (natDigits zd ++ ('_' :: (natDigits b ++ ('.' :: "jpeg".data))))) =
      some (zd, b) := by
  rw [matchZTail_cons_uz]
  rw [spanDigits_natDigits zd _ (fun c hc => by
    rw [List.head?_cons, Option.some.injEq] at hc
    rw [← hc]
    rfl)]
  dsimp only
  rw [if_neg (natDigits_ne_nil zd)]
  rw [matchTail_form, numOfDigits_natDigits]

theorem matchZTail_noz (b : Nat) :
    matchZTail ('_' :: (natDigits b ++ ('.' :: "jpeg".data))) = none := by
  rw [matchZTail.eq_def]
  split
  · rename_i r heq
    exfalso
    rcases hnd : natDigits b with _ | ⟨c, cs⟩
    · exact natDigits_ne_nil b hnd
    · rw [hnd, List.cons_append, List.cons.injEq, List.cons.injEq] at heq
      have hd : isDigitChar c = true :=
        isDigitChar_of_mem_natDigits (by rw [hnd]; exact List.mem_cons_self c cs)
      rw [heq.2.1] at hd
      exact absurd hd (by decide)
  · rfl

theorem matchFilenameL_z_form (x y zd b : Nat) :
    matchFilenameL ('x' :: (natDigits x ++ ('_' :: 'y' :: (natDigits y ++
      ('_' :: 'z' :: (natDigits zd ++ ('_' :: (natDigits b ++ ('.' :: "jpeg".data))))))))) =
      some (x, y, some zd, b) := by
  rw [matchFilenameL_cons_x]
  rw [spanDigits_natDigits x _ (fun c hc => by
    rw [List.head?_cons, Option.some.injEq] at hc
    rw [← hc]
    rfl)]
  dsimp only
  rw [if_neg (natDigits_ne_nil x)]
  split
  case _ r3 heq =>
    rw [List.cons.injEq, List.cons.injEq] at heq
    rw [← heq.2.2]
    rw [spanDigits_natDigits y _ (fun c hc => by
      rw [List.head?_cons, Option.some.injEq] at hc
      rw [← hc]
      rfl)]
    dsimp only
    rw [if_neg (natDigits_ne_nil y)]
    rw [matchZTail_form]
    rw [numOfDigits_natDigits, numOfDigits_natDigits]
  case _ hne =>
    exact absurd rfl (hne _)

theorem matchFilenameL_noz_form (x y b : Nat) :
    matchFilenameL ('x' :: (natDigits x ++ ('_' :: 'y' :: (natDigits y ++
      ('_' :: (natDigits b ++ ('.' :: "jpeg".data))))))) = some (x, y, none, b) := by
  rw [matchFilenameL_cons_x]
  rw [spanDigits_natDigits x _ (fun c hc => by
    rw [List.head?_cons, Option.some.injEq] at hc
    rw [← hc]
    rfl)]
  dsimp only
  rw [if_neg (natDigits_ne_nil x)]
  split
  case _ r3 heq =>
    rw [List.cons.injEq, List.cons.injEq] at heq
    rw [← heq.2.2]
    rw [spanDigits_natDigits y _ (fun c hc => by
      rw [List.head?_cons, Option.some.injEq] at hc
      rw [← hc]
      rfl)]
    dsimp only
    rw [if_neg (natDigits_ne_nil y)]
    rw [matchZTail_noz]
    rw [matchTail_form, numOfDigits_natDigits, numOfDigits_natDigits]
  case _ hne =>
    exact absurd rfl (hne _)

end Artify.Nodes
namespace Artify.Nodes

theorem image_filename_z_data (x y zd b : Nat) :
    ((_image_filename (x : Int) (y : Int) (zd : Int) (b : Int)).data).map pyLower =
      'x' :: (natDigits x ++ ('_' :: 'y' :: (natDigits y ++
        ('_' :: 'z' :: (natDigits zd ++ ('_' :: (natDigits b ++ ('.' :: "jpeg".data)))))))) := by
  unfold _image_filename
  rw [if_pos (by omega : (zd : Int) ≥ 0)]
  rw [intStr_ofNat, intStr_ofNat, intStr_ofNat, intStr_ofNat]
  simp only [String.data_append, natStr, List.map_append, map_pyLower_natDigits,
    show ("x" : String).data = ['x'] from rfl,
    show ("_y" : String).data = ['_', 'y'] from rfl,
    show ("_z" : String).data = ['_', 'z'] from rfl,
    show ("_" : String).data = ['_'] from rfl,
    show (".jpeg" : String).data = ['.', 'j', 'p', 'e', 'g'] from rfl,
    List.map_cons, List.map_nil,
    show pyLower 'x' = 'x' from rfl, show pyLower 'y' = 'y' from rfl,
    show pyLower 'z' = 'z' from rfl, show pyLower '_' = '_' from rfl,
    show pyLower '.' = '.' from rfl, show pyLower 'j' = 'j' from rfl,
    show pyLower 'p' = 'p' from rfl, show pyLower 'e' = 'e' from rfl,
    show pyLower 'g' = 'g' from rfl,
    List.cons_append, List.append_assoc, List.nil_append]

theorem image_filename_noz_data (x y b : Nat) :
    ((_image_filename (x : Int) (y : Int) (-1) (b : Int)).data).map pyLower =
      'x' :: (natDigits x ++ ('_' :: 'y' :: (natDigits y ++
        ('_' :: (natDigits b ++ ('.' :: "jpeg".data)))))) := by
  unfold _image_filename
  rw [if_neg (by omega : ¬((-1 : Int) ≥ 0))]
  rw [intStr_ofNat, intStr_ofNat, intStr_ofNat]
  simp only [String.data_append, natStr, List.map_append, map_pyLower_natDigits,
    show ("x" : String).data = ['x'] from rfl,
    show ("_y" : String).data = ['_', 'y'] from rfl,
    show ("_" : String).data = ['_'] from rfl,
    show (".jpeg" : String).data = ['.', 'j', 'p', 'e', 'g'] from rfl,
    List.map_cons, List.map_nil,
    show pyLower 'x' = 'x' from rfl, show pyLower 'y' = 'y' from rfl,
    show pyLower '_' = '_' from rfl,
    show pyLower '.' = '.' from rfl, show pyLower 'j' = 'j' from rfl,
    show pyLower 'p' = 'p' from rfl, show pyLower 'e' = 'e' from rfl,
    show pyLower 'g' = 'g' from rfl,
    List.cons_append, List.append_assoc, List.nil_append]

end Artify.Nodes
namespace Artify.Claims

open Artify.Nodes

/-- C3: for all natural (x, y, z, batch) with z cast non-negative, the
recovery pattern parses _image_filename(x, y, z, batch) back to exactly
(x, y, some z, batch); for z = -1 the filename omits the z segment (it equals
the explicit x..y..batch format) and the pattern parses it with an absent z
group, which the recovery scanner records as z = -1. -/
theorem C3_filename_roundtrip (x y z b : Nat) :
    matchFilename (_image_filename (x : Int) (y : Int) (z : Int) (b : Int)) =
      some (x, y, some z, b) ∧
    _image_filename (x : Int) (y : Int) (-1) (b : Int) =
      "x" ++ natStr x ++ "_y" ++ natStr y ++ "_" ++ natStr b ++ ".jpeg" ∧
    matchFilename (_image_filename (x : Int) (y : Int) (-1) (b : Int)) = some (x, y, none, b) ∧
    recoverFilename (_image_filename (x : Int) (y : Int) (z : Int) (b : Int)) =
      some (x, y, (z : Int), b) ∧
    recoverFilename (_image_filename (x : Int) (y : Int) (-1) (b : Int)) =
      some (x, y, -1, b) := by
  refine ⟨?_, ?_, ?_, ?_, ?_⟩
  · unfold matchFilename
    rw [image_filename_z_data, matchFilenameL_z_form]
  · unfold _image_filename
    rw [if_neg (by omega : ¬((-1 : Int) ≥ 0))]
    rw [intStr_ofNat, intStr_ofNat, intStr_ofNat]
  · unfold matchFilename
    rw [image_filename_noz_data, matchFilenameL_noz_form]
  · unfold recoverFilename matchFilename
    rw [image_filename_z_data, matchFilenameL_z_form]
    rfl
  · unfold recoverFilename matchFilename
    rw [image_filename_noz_data, matchFilenameL_noz_form]
    rfl

end Artify.Claims
namespace Artify.Nodes

theorem le_maxList {a : Nat} : ∀ {l : List Nat}, a ∈ l → a ≤ maxList l := by
  intro l
  induction l with
  | nil => intro h; cases h
  | cons b rest ih =>
    intro h
    rcases List.mem_cons.mp h with rfl | hm
    · exact Nat.le_max_left _ _
    · exact le_trans (ih hm) (Nat.le_max_right _ _)

theorem zIndexOf_any_iff (ms : List (Nat × Nat × Option Nat × Nat)) :
    (ms.map zIndexOf).any (fun z => decide (z ≥ 0)) = true ↔
      ∃ m ∈ ms, m.2.2.1.isSome = true := by
  rw [List.any_eq_true]
  constructor
  · rintro ⟨z, hz, hz0⟩
    rcases List.mem_map.mp hz with ⟨m, hm, rfl⟩
    refine ⟨m, hm, ?_⟩
    unfold zIndexOf at hz0
    cases hmz : m.2.2.1 with
    | some k => rfl
    | none => rw [hmz] at hz0; simp at hz0
  · rintro ⟨m, hm, hsome⟩
    refine ⟨zIndexOf m, List.mem_map_of_mem _ hm, ?_⟩
    cases hmz : m.2.2.1 with
    | some k =>
      unfold zIndexOf
      rw [hmz]
      simp
    | none => rw [hmz] at hsome; cases hsome

end Artify.Nodes

namespace Artify.Claims

open Artify.Nodes

/-- C6: filename-based recovery infers the x and y extents as
maximal-seen-index + 1, infers Z-presence exactly when some matched filename
carries a z component, infers batch size as maximal batch index + 1, and
fails exactly when no directory entry matches the pattern; on the folder
{x0_y0_0.jpeg, x1_y0_0.jpeg} it infers two x values, one y value, no Z and
batch size 1. -/
theorem C6_infer_plot_meta (listing : List String) :
    ((∃ e, _infer_plot_meta_from_filenames listing = .error e) ↔
      listing.filterMap matchFilename = []) ∧
    (∀ meta, _infer_plot_meta_from_filenames listing = .ok meta →
      meta.values_x.length =
        maxList ((listing.filterMap matchFilename).map (fun m => m.1)) + 1 ∧
      meta.values_y.length =
        maxList ((listing.filterMap matchFilename).map (fun m => m.2.1)) + 1 ∧
      (meta.values_z ≠ [] ↔ ∃ m ∈ listing.filterMap matchFilename, m.2.2.1.isSome = true) ∧
      meta.batch_size =
        maxList ((listing.filterMap matchFilename).map (fun m => m.2.2.2)) + 1) ∧
    _infer_plot_meta_from_filenames ["x0_y0_0.jpeg", "x1_y0_0.jpeg"] =
      .ok { values_x := ["x0", "x1"], values_y := ["y0"], values_z := [],
            z_slots := [-1], batch_size := 1 } := by
  refine ⟨?_, ?_, rfl⟩
  · constructor
    · rintro ⟨e, he⟩
      by_cases hms : listing.filterMap matchFilename = []
      · exact hms
      · exfalso
        unfold _infer_plot_meta_from_filenames at he
        rw [if_neg hms] at he
        cases he
    · intro hms
      unfold _infer_plot_meta_from_filenames
      rw [if_pos hms]
      exact ⟨_, rfl⟩
  · intro meta hok
    unfold _infer_plot_meta_from_filenames at hok
    by_cases hms : listing.filterMap matchFilename = []
    · rw [if_pos hms] at hok; cases hok
    · rw [if_neg hms] at hok
      rw [Except.ok.injEq] at hok
      subst hok
      refine ⟨by simp, by simp, ?_, rfl⟩
      rw [← zIndexOf_any_iff]
      by_cases hz : ((listing.filterMap matchFilename).map zIndexOf).any
          (fun z => decide (z ≥ 0)) = true
      · simp only [hz, if_pos]
        constructor
        · intro _
          trivial
        · intro _
          rcases (zIndexOf_any_iff _).mp hz with ⟨m, hm, hsome⟩
          cases hmz : m.2.2.1 with
          | none => rw [hmz] at hsome; cases hsome
          | some z0 =>
            have hz0mem : z0 ∈ (listing.filterMap matchFilename).filterMap
                (fun m => m.2.2.1) := by
              rw [List.mem_filterMap]
              exact ⟨m, hm, hmz⟩
            have hz0rng : z0 ∈ List.range
                (maxList ((listing.filterMap matchFilename).filterMap
                  (fun m => m.2.2.1)) + 1) := by
              rw [List.mem_range]
              exact Nat.lt_succ_of_le (le_maxList hz0mem)
            have hz0flt : z0 ∈ (List.range
                (maxList ((listing.filterMap matchFilename).filterMap
                  (fun m => m.2.2.1)) + 1)).filter
                (fun (k : Nat) => ((listing.filterMap matchFilename).map zIndexOf).contains
                  ((k : Int))) := by
              rw [List.mem_filter]
              refine ⟨hz0rng, ?_⟩
              have hzi : zIndexOf m = (z0 : Int) := by unfold zIndexOf; rw [hmz]
              have hmemz : ((z0 : Int)) ∈
                  (listing.filterMap matchFilename).map zIndexOf := by
                rw [← hzi]
                exact List.mem_map_of_mem _ hm
              exact List.elem_iff.mpr hmemz
            apply List.ne_nil_of_mem
            apply List.mem_map_of_mem
            apply List.mem_map_of_mem
            exact hz0flt
      · rw [Bool.not_eq_true] at hz
        simp only [hz]
        simp

end Artify.Claims

namespace Artify.Claims

open Artify.Nodes

/-- C6 witness: the ok-branch of C6_infer_plot_meta discharged on the
two-file folder from the spec, and the failure branch discharged on an empty
listing. -/
theorem C6_infer_plot_meta_witness :
    ((⟨["x0", "x1"], ["y0"], [], [-1], 1⟩ : PlotMeta).values_x.length =
        maxList ((["x0_y0_0.jpeg", "x1_y0_0.jpeg"].filterMap matchFilename).map
          (fun m => m.1)) + 1 ∧
      (⟨["x0", "x1"], ["y0"], [], [-1], 1⟩ : PlotMeta).values_y.length =
        maxList ((["x0_y0_0.jpeg", "x1_y0_0.jpeg"].filterMap matchFilename).map
          (fun m => m.2.1)) + 1 ∧
      ((⟨["x0", "x1"], ["y0"], [], [-1], 1⟩ : PlotMeta).values_z ≠ [] ↔
        ∃ m ∈ ["x0_y0_0.jpeg", "x1_y0_0.jpeg"].filterMap matchFilename,
          m.2.2.1.isSome = true) ∧
      (⟨["x0", "x1"], ["y0"], [], [-1], 1⟩ : PlotMeta).batch_size =
        maxList ((["x0_y0_0.jpeg", "x1_y0_0.jpeg"].filterMap matchFilename).map
          (fun m => m.2.2.2)) + 1) ∧
    (∃ e, _infer_plot_meta_from_filenames [] = .error e) :=
  ⟨(C6_infer_plot_meta ["x0_y0_0.jpeg", "x1_y0_0.jpeg"]).2.1 _ rfl,
   (C6_infer_plot_meta []).1.mpr rfl⟩

end Artify.Claims
namespace Artify.Nodes

theorem promptGet_nil (k : PKey) : promptGet [] k = none := rfl

theorem promptGet_cons (k' : PKey) (n' : PNode) (rest : Prompt) (k : PKey) :
    promptGet ((k', n') :: rest) k = if k' = k then some n' else promptGet rest k := rfl

theorem promptSet_cons (k' : PKey) (n' : PNode) (rest : Prompt) (k : PKey) (n : PNode) :
    promptSet ((k', n') :: rest) k n =
      if k' = k then (k, n) :: rest else (k', n') :: promptSet rest k n := rfl

theorem promptSet_get_self {k : PKey} {n0 n : PNode} :
    ∀ {p : Prompt}, promptGet p k = some n0 → promptGet (promptSet p k n) k = some n := by
  intro p
  induction p with
  | nil => intro h; cases h
  | cons kv rest ih =>
    obtain ⟨k', n'⟩ := kv
    intro h
    rw [promptGet_cons] at h
    rw [promptSet_cons]
    by_cases hk : k' = k
    · rw [if_pos hk, promptGet_cons, if_pos rfl]
    · rw [if_neg hk] at h
      rw [if_neg hk, promptGet_cons, if_neg hk]
      exact ih h

theorem promptSet_get_other {k k2 : PKey} (hne : k2 ≠ k) (n : PNode) :
    ∀ p : Prompt, promptGet (promptSet p k n) k2 = promptGet p k2 := by
  intro p
  induction p with
  | nil => rfl
  | cons kv rest ih =>
    obtain ⟨k', n'⟩ := kv
    rw [promptSet_cons]
    by_cases hk : k' = k
    · rw [if_pos hk, promptGet_cons, promptGet_cons]
      rw [if_neg (fun (h : k = k2) => hne h.symm),
        if_neg (fun (h : k' = k2) => hne (h.symm.trans hk))]
    · rw [if_neg hk, promptGet_cons, promptGet_cons, ih]

theorem alistGet_nil (key : String) : alistGet [] key = none := rfl

theorem alistGet_cons (k : String) (v : PValue) (rest : List (String × PValue)) (key : String) :
    alistGet ((k, v) :: rest) key = if k = key then some v else alistGet rest key := rfl

theorem alistSet_cons (k : String) (v' : PValue) (rest : List (String × PValue))
    (key : String) (v : PValue) :
    alistSet ((k, v') :: rest) key v =
      if k = key then (key, v) :: rest else (k, v') :: alistSet rest key v := rfl

theorem alistSet_get_self (key : String) (v : PValue) :
    ∀ l : List (String × PValue), alistGet (alistSet l key v) key = some v := by
  intro l
  induction l with
  | nil => rw [show alistSet [] key v = [(key, v)] from rfl, alistGet_cons, if_pos rfl]
  | cons kv rest ih =>
    obtain ⟨k, v'⟩ := kv
    rw [alistSet_cons]
    by_cases hk : k = key
    · rw [if_pos hk, alistGet_cons, if_pos rfl]
    · rw [if_neg hk, alistGet_cons, if_neg hk]
      exact ih

theorem alistSet_get_other {key w2 : String} (hne : w2 ≠ key) (v : PValue) :
    ∀ l : List (String × PValue), alistGet (alistSet l key v) w2 = alistGet l w2 := by
  intro l
  induction l with
  | nil =>
    rw [show alistSet [] key v = [(key, v)] from rfl, alistGet_cons,
      if_neg (fun h => hne h.symm), alistGet_nil]
  | cons kv rest ih =>
    obtain ⟨k, v'⟩ := kv
    rw [alistSet_cons]
    by_cases hk : k = key
    · rw [if_pos hk, alistGet_cons, alistGet_cons,
        if_neg (fun h => hne h.symm), if_neg (by rw [hk]; exact fun h => hne h.symm)]
    · rw [if_neg hk, alistGet_cons, alistGet_cons, ih]

theorem alistSet_keys_of_has {key : String} (v : PValue) :
    ∀ {l : List (String × PValue)}, alistHas l key = true →
      (alistSet l key v).map Prod.fst = l.map Prod.fst := by
  intro l
  induction l with
  | nil => intro h; cases h
  | cons kv rest ih =>
    obtain ⟨k, v'⟩ := kv
    intro h
    rw [alistSet_cons]
    by_cases hk : k = key
    · rw [if_pos hk, List.map_cons, List.map_cons, hk]
    · rw [if_neg hk, List.map_cons, List.map_cons]
      have htail : alistHas rest key = true := by
        unfold alistHas at h ⊢
        rw [alistGet_cons, if_neg hk] at h
        exact h
      rw [ih htail]

theorem ensure_ok_get {prompt : Prompt} {node_id : String} {k : PKey} {node : PNode}
    (h : _ensure_prompt_node prompt node_id = .ok (k, node)) :
    promptGet prompt k = some node := by
  unfold _ensure_prompt_node at h
  cases hs : promptGet prompt (.strKey node_id) with
  | some n =>
    rw [hs] at h
    dsimp only at h
    rw [Except.ok.injEq, Prod.mk.injEq] at h
    rw [← h.1, hs, h.2]
  | none =>
    rw [hs] at h
    dsimp only at h
    by_cases hd : isDigitStr node_id.data = true
    · rw [if_pos hd] at h
      cases hi : promptGet prompt (.intKey (numOfDigits node_id.data : Int)) with
      | some n =>
        rw [hi] at h
        dsimp only at h
        rw [Except.ok.injEq, Prod.mk.injEq] at h
        rw [← h.1, hi, h.2]
      | none => rw [hi] at h; cases h
    · rw [if_neg hd] at h
      dsimp only at h
      cases h

end Artify.Nodes
namespace Artify.Claims

open Artify.Nodes

/-- C7: _set_axis_value raises a node-not-found ValueError when the id
resolves under neither the string key nor (for numeric ids) the integer key,
leaving the prompt unchanged; raises a widget-not-found ValueError whose
message embeds the node id and title when the node exists but its input map
lacks the widget key, leaving every other node unmodified; and otherwise
overwrites the widget value in place with the given (string) value, creating
no new widget key and leaving every other node unmodified. -/
theorem C7_set_axis_value (prompt : Prompt) (ref : InputRef) (value : String) :
    (promptGet prompt (.strKey ref.node_id) = none →
      (isDigitStr ref.node_id.data = false ∨
        promptGet prompt (.intKey (numOfDigits ref.node_id.data : Int)) = none) →
      (_set_axis_value prompt ref value).1 = prompt ∧
      (_set_axis_value prompt ref value).2 =
        some ("Node id '" ++ ref.node_id ++ "' does not exist in prompt.")) ∧
    (∀ k node, _ensure_prompt_node prompt ref.node_id = .ok (k, node) →
      alistHas (node.inputs.getD []) ref.widget_name = false →
      (∃ pre post, (_set_axis_value prompt ref value).2 =
        some (pre ++ ref.node_id ++ post)) ∧
      (∃ pre post, (_set_axis_value prompt ref value).2 =
        some (pre ++ ref.node_title ++ post)) ∧
      (∀ k2, k2 ≠ k →
        promptGet (_set_axis_value prompt ref value).1 k2 = promptGet prompt k2)) ∧
    (∀ k node, _ensure_prompt_node prompt ref.node_id = .ok (k, node) →
      alistHas (node.inputs.getD []) ref.widget_name = true →
      (_set_axis_value prompt ref value).2 = none ∧
      (∃ node2, promptGet (_set_axis_value prompt ref value).1 k = some node2 ∧
        node2.inputs = some (alistSet (node.inputs.getD []) ref.widget_name (.str value)) ∧
        alistGet (alistSet (node.inputs.getD []) ref.widget_name (.str value))
          ref.widget_name = some (.str value) ∧
        (alistSet (node.inputs.getD []) ref.widget_name (.str value)).map Prod.fst =
          (node.inputs.getD []).map Prod.fst ∧
        (∀ w2, w2 ≠ ref.widget_name →
          alistGet (alistSet (node.inputs.getD []) ref.widget_name (.str value)) w2 =
            alistGet (node.inputs.getD []) w2)) ∧
      (∀ k2, k2 ≠ k →
        promptGet (_set_axis_value prompt ref value).1 k2 = promptGet prompt k2)) := by
  refine ⟨?_, ?_, ?_⟩
  · intro hs hfall
    have he : _ensure_prompt_node prompt ref.node_id =
        .error ("Node id '" ++ ref.node_id ++ "' does not exist in prompt.") := by
      unfold _ensure_prompt_node
      rw [hs]
      dsimp only
      rcases hfall with hd | hi
      · rw [hd]
        rfl
      · by_cases hd : isDigitStr ref.node_id.data = true
        · rw [hd, if_pos rfl, hi]
        · rw [Bool.not_eq_true] at hd
          rw [hd]
          rfl
    unfold _set_axis_value
    rw [he]
    exact ⟨rfl, rfl⟩
  · intro k node hE hmiss
    have hget := ensure_ok_get hE
    unfold _set_axis_value
    rw [hE]
    dsimp only
    rw [hmiss]
    simp only [Bool.false_eq_true, if_false]
    refine ⟨?_, ?_, ?_⟩
    · refine ⟨"Widget '" ++ ref.widget_name ++ "' was not found on node #",
        " (" ++ ref.node_title ++ ").", ?_⟩
      rw [Option.some.injEq]
      apply String.ext
      simp only [String.data_append, List.append_assoc]
    · exact ⟨"Widget '" ++ ref.widget_name ++ "' was not found on node #" ++
        ref.node_id ++ " (", ").", rfl⟩
    · intro k2 hk2
      exact promptSet_get_other hk2 _ prompt
  · intro k node hE hhas
    have hget := ensure_ok_get hE
    unfold _set_axis_value
    rw [hE]
    dsimp only
    rw [hhas, if_pos rfl]
    refine ⟨rfl, ?_, ?_⟩
    · refine ⟨_, promptSet_get_self hget, rfl, alistSet_get_self _ _ _, ?_, ?_⟩
      · exact alistSet_keys_of_has _ hhas
      · intro w2 hw2
        exact alistSet_get_other hw2 _ _
    · intro k2 hk2
      exact promptSet_get_other hk2 _ prompt

/-- C7 witness: the success branch and the widget-not-found branch of
C7_set_axis_value discharged on a concrete two-node prompt, and the
node-not-found branch on the same prompt under an unknown id. -/
theorem C7_set_axis_value_witness :
    ((_set_axis_value
        [(.strKey "1", ⟨"N", some [("seed", .str "0")]⟩),
         (.strKey "2", ⟨"M", some [("cfg", .str "1")]⟩)]
        ⟨"1", "T", "seed"⟩ "7").2 = none ∧
      (∀ k2, k2 ≠ PKey.strKey "1" →
        promptGet (_set_axis_value
          [(.strKey "1", ⟨"N", some [("seed", .str "0")]⟩),
           (.strKey "2", ⟨"M", some [("cfg", .str "1")]⟩)]
          ⟨"1", "T", "seed"⟩ "7").1 k2 =
        promptGet
          [(.strKey "1", ⟨"N", some [("seed", .str "0")]⟩),
           (.strKey "2", ⟨"M", some [("cfg", .str "1")]⟩)] k2)) ∧
    (∃ pre post, (_set_axis_value
        [(.strKey "1", ⟨"N", some [("seed", .str "0")]⟩)]
        ⟨"1", "T", "nope"⟩ "7").2 = some (pre ++ "1" ++ post)) ∧
    (_set_axis_value [] ⟨"9", "T", "seed"⟩ "7").1 = ([] : Prompt) := by
  have h1 := (C7_set_axis_value
    [(.strKey "1", ⟨"N", some [("seed", .str "0")]⟩),
     (.strKey "2", ⟨"M", some [("cfg", .str "1")]⟩)]
    ⟨"1", "T", "seed"⟩ "7").2.2 (.strKey "1") ⟨"N", some [("seed", .str "0")]⟩ rfl rfl
  have h2 := (C7_set_axis_value
    [(.strKey "1", ⟨"N", some [("seed", .str "0")]⟩)]
    ⟨"1", "T", "nope"⟩ "7").2.1 (.strKey "1") ⟨"N", some [("seed", .str "0")]⟩ rfl rfl
  have h3 := (C7_set_axis_value [] ⟨"9", "T", "seed"⟩ "7").1 rfl (Or.inr rfl)
  exact ⟨⟨h1.1, h1.2.2⟩, h2.1, h3.1⟩

end Artify.Claims
namespace Artify.Nodes

theorem leafCountList_nil : leafCountList [] = 0 := rfl

theorem leafCountList_cons (t : RTree) (rest : List RTree) :
    leafCountList (t :: rest) = leafCount t + leafCountList rest := rfl

theorem leafCount_axisN (v : String) (ch : List RTree) :
    leafCount (.axisN v ch) = leafCountList ch := rfl

theorem leafCount_imgLeaf (folder : String) (ix iy iz : Int) (b : Nat) :
    leafCount (imgLeaf folder ix iy iz b) = 1 := rfl

theorem countSubmits_submit_cons (p : Prompt) (t : List String) (c : Option String)
    (rest : List Effect) :
    countSubmits (.submitE p t c :: rest) = countSubmits rest + 1 := rfl

theorem leafCountList_map_const {α : Type} (f : α → RTree) (k : Nat) :
    ∀ l : List α, (∀ a ∈ l, leafCount (f a) = k) →
      leafCountList (l.map f) = l.length * k := by
  intro l
  induction l with
  | nil => intro _; simp [leafCountList_nil]
  | cons a rest ih =>
    intro h
    rw [List.map_cons, leafCountList_cons, h a (List.mem_cons_self a rest),
      ih (fun b hb => h b (List.mem_cons_of_mem a hb))]
    rw [List.length_cons]
    ring

theorem leafCountList_img_range (folder : String) (ix iy iz : Int) (B : Nat) :
    leafCountList ((List.range B).map (fun b => imgLeaf folder ix iy iz b)) = B := by
  rw [leafCountList_map_const (fun b => imgLeaf folder ix iy iz b) 1 _
    (fun b _ => leafCount_imgLeaf folder ix iy iz b)]
  rw [List.length_range, Nat.mul_one]

theorem planCellsY_length (ix : Nat) (vx : String) (hz : Bool) (Z : List String) :
    ∀ ys : List (Nat × String),
      (planCellsY ix vx hz Z ys).length = ys.length * (if hz then Z.length else 1) := by
  intro ys
  induction ys with
  | nil => cases hz <;> simp [planCellsY]
  | cons y rest ih =>
    obtain ⟨iy, vy⟩ := y
    rw [planCellsY, List.length_append, ih, List.length_cons]
    cases hz
    · simp only [Bool.false_eq_true, if_false, Nat.mul_one, List.length_cons,
        List.length_nil]
      omega
    · simp only [if_pos rfl, if_true, List.length_map, List.enum_length]
      ring

theorem planCells_length (X Y Z : List String) (hz : Bool) :
    (planCells X Y Z hz).length = X.length * Y.length * (if hz then Z.length else 1) := by
  unfold planCells
  have haux : ∀ xs : List (Nat × String),
      (planCellsX hz Y Z xs).length =
        xs.length * (Y.length * (if hz then Z.length else 1)) := by
    intro xs
    induction xs with
    | nil => simp [planCellsX]
    | cons x rest ih =>
      obtain ⟨ix, vx⟩ := x
      rw [planCellsX, List.length_append, ih, planCellsY_length, List.enum_length,
        List.length_cons]
      ring
  rw [haux, List.enum_length]
  ring

theorem runCells_ok (prompt : Prompt) (uid : String) (rx ry : InputRef)
    (rz : Option InputRef) (folder : String) (client : Option String) :
    ∀ (cells : List Cell) (q : Nat) (tr : List Effect),
      runCells prompt uid rx ry rz folder client cells = .ok (q, tr) →
      q = cells.length ∧ countSubmits tr = cells.length := by
  intro cells
  induction cells with
  | nil =>
    intro q tr h
    rw [runCells] at h
    rw [Except.ok.injEq, Prod.mk.injEq] at h
    obtain ⟨h1, h2⟩ := h
    subst h1
    subst h2
    exact ⟨rfl, rfl⟩
  | cons c rest ih =>
    intro q tr h
    rw [runCells] at h
    cases hs : submitOne prompt uid rx ry rz folder c with
    | error e => rw [hs] at h; cases h
    | ok stamped =>
      rw [hs] at h
      dsimp only at h
      cases hr : runCells prompt uid rx ry rz folder client rest with
      | error etr => rw [hr] at h; cases h
      | ok qtr =>
        obtain ⟨q', tr'⟩ := qtr
        rw [hr] at h
        dsimp only at h
        rw [Except.ok.injEq, Prod.mk.injEq] at h
        rcases ih q' tr' hr with ⟨ih1, ih2⟩
        constructor
        · rw [← h.1, ih1, List.length_cons]
        · rw [← h.2, countSubmits_submit_cons, ih2, List.length_cons]

end Artify.Nodes
namespace Artify.Claims

open Artify.Nodes

/-- C5: for non-empty value lists X and Y, optional Z and batch size B >= 1,
the manifest result tree has breadth |X| at the top, |Y| under every X node,
|Z| under every Y node when Z is non-empty, exactly B image-slot leaves per
innermost cell, and total leaf count |X| * |Y| * (|Z| or 1) * B; and the
fan-out planner queues exactly |X| * |Y| * (|Z| if the Z axis is active
else 1) cell submissions. -/
theorem C5_tree_and_planner (folder : String) (X Y Z : List String) (B : Nat)
    (hX : X ≠ []) (hY : Y ≠ []) (hB : 1 ≤ B) :
    (_build_result_tree folder X Y Z B).length = X.length ∧
    (∀ t ∈ _build_result_tree folder X Y Z B, (RTree.children t).length = Y.length) ∧
    (Z ≠ [] → ∀ t ∈ _build_result_tree folder X Y Z B, ∀ u ∈ RTree.children t,
      (RTree.children u).length = Z.length ∧
      ∀ w ∈ RTree.children u, (RTree.children w).length = B ∧
        ∀ s ∈ RTree.children w, RTree.isImg s = true) ∧
    (Z = [] → ∀ t ∈ _build_result_tree folder X Y Z B, ∀ u ∈ RTree.children t,
      (RTree.children u).length = B ∧ ∀ w ∈ RTree.children u, RTree.isImg w = true) ∧
    leafCountList (_build_result_tree folder X Y Z B) =
      X.length * Y.length * (if Z = [] then 1 else Z.length) * B ∧
    (∀ (prompt : Prompt) (uid : String) (rx ry : InputRef) (rz : Option InputRef)
        (client : Option String) (hz : Bool) (q : Nat) (tr : List Effect),
      runCells prompt uid rx ry rz folder client (planCells X Y Z hz) = .ok (q, tr) →
      q = X.length * Y.length * (if hz then Z.length else 1) ∧
      countSubmits tr = X.length * Y.length * (if hz then Z.length else 1)) := by
  refine ⟨?_, ?_, ?_, ?_, ?_, ?_⟩
  · unfold _build_result_tree
    rw [List.length_map, List.enum_length]
  · intro t ht
    unfold _build_result_tree at ht
    rcases List.mem_map.mp ht with ⟨ixv, _, rfl⟩
    show (Y.enum.map _).length = Y.length
    rw [List.length_map, List.enum_length]
  · intro hZ t ht u hu
    have hlen : Z.length > 0 := List.length_pos.mpr hZ
    unfold _build_result_tree at ht
    rcases List.mem_map.mp ht with ⟨ixv, _, rfl⟩
    rcases List.mem_map.mp hu with ⟨iyv, _, rfl⟩
    rw [if_pos hlen]
    constructor
    · show (Z.enum.map _).length = Z.length
      rw [List.length_map, List.enum_length]
    · intro w hw
      rcases List.mem_map.mp hw with ⟨izv, _, rfl⟩
      constructor
      · show ((List.range B).map _).length = B
        rw [List.length_map, List.length_range]
      · intro s hs
        rcases List.mem_map.mp hs with ⟨b, _, rfl⟩
        rfl
  · intro hZ t ht u hu
    have hlen : ¬(Z.length > 0) := by simp [hZ]
    unfold _build_result_tree at ht
    rcases List.mem_map.mp ht with ⟨ixv, _, rfl⟩
    rcases List.mem_map.mp hu with ⟨iyv, _, rfl⟩
    rw [if_neg hlen]
    constructor
    · show ((List.range B).map _).length = B
      rw [List.length_map, List.length_range]
    · intro w hw
      rcases List.mem_map.mp hw with ⟨b, _, rfl⟩
      rfl
  · unfold _build_result_tree
    by_cases hZ : Z = []
    · have hc : (Z.length > 0) = False := eq_false (by simp [hZ])
      simp only [hc, if_false]
      rw [leafCountList_map_const _ (Y.length * B) _ (fun ixv _ => by
        rw [leafCount_axisN,
          leafCountList_map_const _ B _ (fun iyv _ => by
            rw [leafCount_axisN, leafCountList_img_range]),
          List.enum_length])]
      rw [List.enum_length, if_pos hZ]
      ring
    · have hc : (Z.length > 0) = True := eq_true (List.length_pos.mpr hZ)
      simp only [hc, if_true]
      rw [leafCountList_map_const _ (Y.length * (Z.length * B)) _ (fun ixv _ => by
        rw [leafCount_axisN,
          leafCountList_map_const _ (Z.length * B) _ (fun iyv _ => by
            rw [leafCount_axisN,
              leafCountList_map_const _ B _ (fun izv _ => by
                rw [leafCount_axisN, leafCountList_img_range]),
              List.enum_length]),
          List.enum_length])]
      rw [List.enum_length, if_neg hZ]
      ring
  · intro prompt uid rx ry rz client hz q tr h
    rcases runCells_ok prompt uid rx ry rz folder client _ q tr h with ⟨h1, h2⟩
    rw [planCells_length] at h1 h2
    exact ⟨h1, h2⟩

end Artify.Claims

namespace Artify.Claims

open Artify.Nodes

/-- C5 witness: C5_tree_and_planner discharged at X = ["a"], Y = ["b"],
Z = [], B = 1, with the fan-out loop run on a concrete three-node prompt. -/
theorem C5_tree_and_planner_witness :
    (_build_result_tree "f" ["a"] ["b"] [] 1).length = (["a"] : List String).length ∧
    leafCountList (_build_result_tree "f" ["a"] ["b"] [] 1) =
      (["a"] : List String).length * (["b"] : List String).length *
        (if ([] : List String) = [] then 1 else ([] : List String).length) * 1 ∧
    (1 = (["a"] : List String).length * (["b"] : List String).length *
        (if false then ([] : List String).length else 1) ∧
      countSubmits
        [Effect.submitE
          [(.strKey "1", ⟨"N", some [("seed", .str "a")]⟩),
           (.strKey "2", ⟨"M", some [("cfg", .str "b")]⟩),
           (.strKey "10", ⟨"ArtifyXYZPlot",
             some [("xyz_data", .xyz ⟨some "10", some "f", some 0, some 0, some (-1)⟩)]⟩)]
          ["10"] none] =
        (["a"] : List String).length * (["b"] : List String).length *
          (if false then ([] : List String).length else 1)) := by
  have h := C5_tree_and_planner "f" ["a"] ["b"] [] 1 (by decide) (by decide) (by decide)
  refine ⟨h.1, h.2.2.2.2.1, ?_⟩
  exact h.2.2.2.2.2
    [(.strKey "1", ⟨"N", some [("seed", .str "0")]⟩),
     (.strKey "2", ⟨"M", some [("cfg", .str "1")]⟩),
     (.strKey "10", ⟨"ArtifyXYZPlot", some []⟩)]
    "10" ⟨"1", "N", "seed"⟩ ⟨"2", "M", "cfg"⟩ none none false 1
    [Effect.submitE
      [(.strKey "1", ⟨"N", some [("seed", .str "a")]⟩),
       (.strKey "2", ⟨"M", some [("cfg", .str "b")]⟩),
       (.strKey "10", ⟨"ArtifyXYZPlot",
         some [("xyz_data", .xyz ⟨some "10", some "f", some 0, some 0, some (-1)⟩)]⟩)]
      ["10"] none]
    rfl

end Artify.Claims
namespace Artify.Nodes

theorem countSubmits_mkdir_cons (p : String) (rest : List Effect) :
    countSubmits (.mkdirE p :: rest) = countSubmits rest := rfl

theorem countManifestWrites_mkdir_cons (p : String) (rest : List Effect) :
    countManifestWrites (.mkdirE p :: rest) = countManifestWrites rest := rfl

theorem countImageWrites_mkdir_cons (p : String) (rest : List Effect) :
    countImageWrites (.mkdirE p :: rest) = countImageWrites rest := rfl

theorem countSubmits_writeImages (dir : String) (f : Nat → String) :
    ∀ l : List Nat, countSubmits (l.map (fun b => .writeImageE dir (f b))) = 0 := by
  intro l
  induction l with
  | nil => rfl
  | cons b rest ih => rw [List.map_cons]; rw [show countSubmits
      (.writeImageE dir (f b) :: rest.map (fun b => .writeImageE dir (f b))) =
      countSubmits (rest.map (fun b => .writeImageE dir (f b))) from rfl, ih]

theorem countManifestWrites_writeImages (dir : String) (f : Nat → String) :
    ∀ l : List Nat, countManifestWrites (l.map (fun b => .writeImageE dir (f b))) = 0 := by
  intro l
  induction l with
  | nil => rfl
  | cons b rest ih => rw [List.map_cons]; rw [show countManifestWrites
      (.writeImageE dir (f b) :: rest.map (fun b => .writeImageE dir (f b))) =
      countManifestWrites (rest.map (fun b => .writeImageE dir (f b))) from rfl, ih]

theorem countImageWrites_writeImages (dir : String) (f : Nat → String) :
    ∀ l : List Nat, countImageWrites (l.map (fun b => .writeImageE dir (f b))) = l.length := by
  intro l
  induction l with
  | nil => rfl
  | cons b rest ih =>
    rw [List.map_cons]
    rw [show countImageWrites
      (.writeImageE dir (f b) :: rest.map (fun b => .writeImageE dir (f b))) =
      countImageWrites (rest.map (fun b => .writeImageE dir (f b))) + 1 from rfl, ih,
      List.length_cons]

end Artify.Nodes

namespace Artify.Claims

open Artify.Nodes

/-- C4: a COMPLETE-phase invocation (side-channel xyz_data present on the
originating node, carrying a folder name and the coordinate (x, y, z))
creates the folder and writes exactly the B files
_image_filename(x, y, z, 0..B-1) into it, performs no submission, and never
writes the result.json manifest. -/
theorem C4_complete_phase (env : Env) (hidden : Option ExecCtx) (a : ExecArgs)
    (prompt : Prompt) (uid : String) (k : PKey) (node : PNode) (d : XyzData)
    (fn : String) (x y z : Int)
    (hH : hiddenCtx hidden = some (prompt, uid))
    (hE : _ensure_prompt_node prompt uid = .ok (k, node))
    (hD : getXyzData node = some d)
    (hfn : d.output_folder_name = some fn)
    (hx : d.x_index = some x) (hy : d.y_index = some y) (hz : d.z_index = some z) :
    execute env hidden a = .ok
      ({ folder_name := _sanitize_folder_name fn
         folder_path := _output_folder_path env.outputRoot (_sanitize_folder_name fn)
         result_path :=
           _output_folder_path env.outputRoot (_sanitize_folder_name fn) ++ "/result.json" },
       Effect.mkdirE (_output_folder_path env.outputRoot (_sanitize_folder_name fn)) ::
         (List.range a.images).map (fun (b : Nat) =>
           Effect.writeImageE (_output_folder_path env.outputRoot (_sanitize_folder_name fn))
             (_image_filename x y z (b : Int)))) ∧
    countSubmits (trOf (execute env hidden a)) = 0 ∧
    countManifestWrites (trOf (execute env hidden a)) = 0 ∧
    countImageWrites (trOf (execute env hidden a)) = a.images := by
  have hmain : execute env hidden a = .ok
      ({ folder_name := _sanitize_folder_name fn
         folder_path := _output_folder_path env.outputRoot (_sanitize_folder_name fn)
         result_path :=
           _output_folder_path env.outputRoot (_sanitize_folder_name fn) ++ "/result.json" },
       Effect.mkdirE (_output_folder_path env.outputRoot (_sanitize_folder_name fn)) ::
         (List.range a.images).map (fun (b : Nat) =>
           Effect.writeImageE (_output_folder_path env.outputRoot (_sanitize_folder_name fn))
             (_image_filename x y z (b : Int)))) := by
    unfold execute
    rw [hH]
    dsimp only
    rw [hE]
    dsimp only
    rw [hD]
    dsimp only
    unfold completePhase
    rw [hfn, hx, hy, hz]
    dsimp only [Option.getD_some]
    rfl
  refine ⟨hmain, ?_, ?_, ?_⟩
  · rw [hmain]
    show countSubmits (.mkdirE _ :: _) = 0
    rw [countSubmits_mkdir_cons, countSubmits_writeImages]
  · rw [hmain]
    show countManifestWrites (.mkdirE _ :: _) = 0
    rw [countManifestWrites_mkdir_cons, countManifestWrites_writeImages]
  · rw [hmain]
    show countImageWrites (.mkdirE _ :: _) = a.images
    rw [countImageWrites_mkdir_cons, countImageWrites_writeImages, List.length_range]

end Artify.Claims

namespace Artify.Claims

open Artify.Nodes

/-- C4 witness: C4_complete_phase discharged on a concrete stamped
invocation with a batch of two images at coordinate (1, 0, -1). -/
theorem C4_complete_phase_witness :
    execute ⟨"out", 7, none, fun _ => false⟩
      (some ⟨some [(.strKey "10", ⟨"ArtifyXYZPlot",
          some [("xyz_data", .xyz ⟨some "10", some "f", some 1, some 0, some (-1)⟩)]⟩)],
        some "10", false⟩)
      ⟨2, some ⟨"1", "N", "seed"⟩, some ⟨"2", "M", "cfg"⟩, "a", "b", "f", true, none, ""⟩ = .ok
      ({ folder_name := _sanitize_folder_name "f"
         folder_path := _output_folder_path "out" (_sanitize_folder_name "f")
         result_path := _output_folder_path "out" (_sanitize_folder_name "f") ++ "/result.json" },
       Effect.mkdirE (_output_folder_path "out" (_sanitize_folder_name "f")) ::
         (List.range 2).map (fun (b : Nat) =>
           Effect.writeImageE (_output_folder_path "out" (_sanitize_folder_name "f"))
             (_image_filename 1 0 (-1) (b : Int)))) :=
  (C4_complete_phase ⟨"out", 7, none, fun _ => false⟩
    (some ⟨some [(.strKey "10", ⟨"ArtifyXYZPlot",
        some [("xyz_data", .xyz ⟨some "10", some "f", some 1, some 0, some (-1)⟩)]⟩)],
      some "10", false⟩)
    ⟨2, some ⟨"1", "N", "seed"⟩, some ⟨"2", "M", "cfg"⟩, "a", "b", "f", true, none, ""⟩
    [(.strKey "10", ⟨"ArtifyXYZPlot",
      some [("xyz_data", .xyz ⟨some "10", some "f", some 1, some 0, some (-1)⟩)]⟩)]
    "10" (.strKey "10")
    ⟨"ArtifyXYZPlot", some [("xyz_data", .xyz ⟨some "10", some "f", some 1, some 0, some (-1)⟩)]⟩
    ⟨some "10", some "f", some 1, some 0, some (-1)⟩
    "f" 1 0 (-1) rfl rfl rfl rfl rfl rfl rfl).1

end Artify.Claims
namespace Artify.Claims

open Artify.Nodes

/-- C1: of the three claimed PLAN-phase validation conditions, two hold as
stated — an unbound input_x or input_y reference, and an empty value_x or
value_y list, each raise a ValueError with an empty side-effect trace (no
rename, no write, no submission). The third does NOT hold on the code: a
non-empty value_z with input_z unbound is not rejected — the invocation
completes, writes the result.json manifest (whose tree includes a Z level
built from value_z) and submits fan-out jobs (stamped with z_index = -1),
instead of raising a validation error before any mutation. -/
theorem C1_plan_validation_code_bug :
    errOf (execute ⟨"out", 7, none, fun _ => false⟩
      (some ⟨some [(.strKey "1", ⟨"N", some [("seed", .str "0")]⟩),
          (.strKey "2", ⟨"M", some [("cfg", .str "1")]⟩),
          (.strKey "10", ⟨"ArtifyXYZPlot", some []⟩)], some "10", false⟩)
      ⟨1, none, some ⟨"2", "M", "cfg"⟩, "a", "b", "f", true, none, ""⟩) =
        some .validationAxisRef ∧
    (trOf (execute ⟨"out", 7, none, fun _ => false⟩
      (some ⟨some [(.strKey "1", ⟨"N", some [("seed", .str "0")]⟩),
          (.strKey "2", ⟨"M", some [("cfg", .str "1")]⟩),
          (.strKey "10", ⟨"ArtifyXYZPlot", some []⟩)], some "10", false⟩)
      ⟨1, none, some ⟨"2", "M", "cfg"⟩, "a", "b", "f", true, none, ""⟩)).length = 0 ∧
    errOf (execute ⟨"out", 7, none, fun _ => false⟩
      (some ⟨some [(.strKey "1", ⟨"N", some [("seed", .str "0")]⟩),
          (.strKey "2", ⟨"M", some [("cfg", .str "1")]⟩),
          (.strKey "10", ⟨"ArtifyXYZPlot", some []⟩)], some "10", false⟩)
      ⟨1, some ⟨"1", "N", "seed"⟩, some ⟨"2", "M", "cfg"⟩, " ; ", "b", "f", true, none, ""⟩) =
        some .validationEmptyValues ∧
    (trOf (execute ⟨"out", 7, none, fun _ => false⟩
      (some ⟨some [(.strKey "1", ⟨"N", some [("seed", .str "0")]⟩),
          (.strKey "2", ⟨"M", some [("cfg", .str "1")]⟩),
          (.strKey "10", ⟨"ArtifyXYZPlot", some []⟩)], some "10", false⟩)
      ⟨1, some ⟨"1", "N", "seed"⟩, some ⟨"2", "M", "cfg"⟩, " ; ", "b", "f", true,
        none, ""⟩)).length = 0 ∧
    errOf (execute ⟨"out", 7, none, fun _ => false⟩
      (some ⟨some [(.strKey "1", ⟨"N", some [("seed", .str "0")]⟩),
          (.strKey "2", ⟨"M", some [("cfg", .str "1")]⟩),
          (.strKey "10", ⟨"ArtifyXYZPlot", some []⟩)], some "10", false⟩)
      ⟨1, some ⟨"1", "N", "seed"⟩, some ⟨"2", "M", "cfg"⟩, "a", "b", "f", true,
        none, "p"⟩) = none ∧
    countManifestWrites (trOf (execute ⟨"out", 7, none, fun _ => false⟩
      (some ⟨some [(.strKey "1", ⟨"N", some [("seed", .str "0")]⟩),
          (.strKey "2", ⟨"M", some [("cfg", .str "1")]⟩),
          (.strKey "10", ⟨"ArtifyXYZPlot", some []⟩)], some "10", false⟩)
      ⟨1, some ⟨"1", "N", "seed"⟩, some ⟨"2", "M", "cfg"⟩, "a", "b", "f", true,
        none, "p"⟩)) = 1 ∧
    countSubmits (trOf (execute ⟨"out", 7, none, fun _ => false⟩
      (some ⟨some [(.strKey "1", ⟨"N", some [("seed", .str "0")]⟩),
          (.strKey "2", ⟨"M", some [("cfg", .str "1")]⟩),
          (.strKey "10", ⟨"ArtifyXYZPlot", some []⟩)], some "10", false⟩)
      ⟨1, some ⟨"1", "N", "seed"⟩, some ⟨"2", "M", "cfg"⟩, "a", "b", "f", true,
        none, "p"⟩)) = 1 := by
  refine ⟨by decide, by decide, by decide, by decide, by decide, by decide, by decide⟩

end Artify.Claims
